import Mathlib

/-!
Verification of the Nasa-project research-paper backend.

This file shallowly embeds the retrieval / identity / session logic of
  * `actual-backend/scripts/serve_adapted.py` (the real RAG backend), and
  * `nasa-hack-feature/backend/mock_data.py` with `mock-backend/app.py`
    (the deterministic mock backend),
and proves the frozen claims about them.

Modelling conventions:
  * Python strings are Lean `String`s; character-level text processing
    (`str.strip`, `str.split`, substring tests) is modelled on `List Char`.
  * Python floats are modelled as rationals `ℚ`: every numeric expression the
    claims mention (`1 - min(d, 1)`, the `[0.50, 0.99]` clamp, `round(x, 2)`)
    is exact decimal arithmetic.
  * Python dicts are association lists with insert-overwrite semantics.
  * Calls into external libraries (the Chroma vector store, the LLM, and the
    MD5/SHA1 digests inside `uuid.uuid5` / `hashlib.md5`) are abstracted as
    function parameters: the handlers are modelled as pure functions of the
    values those collaborators return.
-/

namespace NasaProject

/-! ### Small Python-style utilities -/

/-- Python `enumerate(xs, start=i)`: pair each element with its index. -/
def pyEnum (i : ℕ) : List α → List (ℕ × α)
  | [] => []
  | a :: as => (i, a) :: pyEnum (i + 1) as

/-- Association-list lookup, Python `d[k]` / `k in d` (dict keys compared by
equality). Keys in our dicts are unique, so first match is the match. -/
def dictLookup (k : String) : List (String × β) → Option β
  | [] => none
  | (k', v) :: m => if k = k' then some v else dictLookup k m

/-- Association-list insert with Python dict semantics: `d[k] = v` overwrites
an existing binding in place and otherwise appends. -/
def dictInsert (k : String) (v : β) : List (String × β) → List (String × β)
  | [] => [(k, v)]
  | (k', v') :: m => if k = k' then (k, v) :: m else (k', v') :: dictInsert k v m

@[simp] theorem dictLookup_dictInsert_self (k : String) (v : β) (m : List (String × β)) :
    dictLookup k (dictInsert k v m) = some v := by
  induction m with
  | nil => simp [dictInsert, dictLookup]
  | cons p m ih =>
    obtain ⟨k', v'⟩ := p
    by_cases h : k = k' <;> simp [dictInsert, dictLookup, h, ih]

theorem dictLookup_dictInsert_ne (k k' : String) (hk : k ≠ k') (v : β)
    (m : List (String × β)) :
    dictLookup k (dictInsert k' v m) = dictLookup k m := by
  induction m with
  | nil => simp [dictInsert, dictLookup, hk]
  | cons p m ih =>
    obtain ⟨k'', v''⟩ := p
    by_cases h : k' = k''
    · subst h
      simp [dictInsert, dictLookup, hk]
    · by_cases h2 : k = k'' <;> simp [dictInsert, dictLookup, h, h2, ih]

/-- The canonical "first occurrences, in order" dedup of a list of keys:
keep each key the first time it appears, deleting its later duplicates.
This is the specification-side rendering of the spec sentence
"preserves the relative order of first occurrences". -/
def keepFirst : List String → List String
  | [] => []
  | k :: ks => k :: keepFirst (ks.filter (fun x => x ≠ k))
termination_by l => l.length
decreasing_by
  simp only [List.length_cons]
  exact Nat.lt_succ_of_le (List.length_filter_le _ _)

/-- `keepFirst` only keeps elements of the original list. -/
theorem keepFirst_subset : ∀ ks : List String, keepFirst ks ⊆ ks
  | [] => by simp [keepFirst]
  | k :: ks => by
    rw [keepFirst]
    intro x hx
    rcases List.mem_cons.1 hx with h | h
    · exact h ▸ List.mem_cons_self _ _
    · have := keepFirst_subset _ h
      exact List.mem_cons_of_mem _ (List.mem_of_mem_filter this)
termination_by ks => ks.length
decreasing_by
  simp only [List.length_cons]
  exact Nat.lt_succ_of_le (List.length_filter_le _ _)

theorem keepFirst_nodup : ∀ ks : List String, (keepFirst ks).Nodup
  | [] => by simp [keepFirst]
  | k :: ks => by
    rw [keepFirst]
    refine List.nodup_cons.2 ⟨?_, keepFirst_nodup _⟩
    intro hmem
    have := keepFirst_subset _ hmem
    simp at this
termination_by ks => ks.length
decreasing_by
  simp only [List.length_cons]
  exact Nat.lt_succ_of_le (List.length_filter_le _ _)

/-! ### Injectivity of decimal rendering (`Nat.repr`)

The top-results dedup loop of `api_search` builds synthetic placeholder keys
`f"N/A-{len(used)}"`; freshness of those keys rests on distinct naturals having
distinct decimal strings.  Core provides no injectivity lemma for `Nat.repr`,
so we derive one from a structural description of `Nat.toDigitsCore`. -/

/-- Structural (fuel-free) decimal rendering: digits of `n` in order. -/
def natRep (n : ℕ) : List Char :=
  if n < 10 then [Nat.digitChar n]
  else natRep (n / 10) ++ [Nat.digitChar (n % 10)]
termination_by n
decreasing_by exact Nat.div_lt_self (by omega) (by omega)

theorem toDigitsCore_eq_natRep :
    ∀ (f n : ℕ) (ds : List Char), n < 10 ^ f → 0 < f →
      Nat.toDigitsCore 10 f n ds = natRep n ++ ds := by
  intro f
  induction f with
  | zero => intro n ds _ h0; exact absurd h0 (by omega)
  | succ f ih =>
    intro n ds hn _
    rw [Nat.toDigitsCore]
    by_cases h10 : n < 10
    · have hdiv : n / 10 = 0 := Nat.div_eq_of_lt h10
      simp only [hdiv, if_pos rfl]
      rw [natRep, if_pos h10, Nat.mod_eq_of_lt h10]
      simp
    · have hdiv : n / 10 ≠ 0 := by
        intro h
        exact h10 (by omega)
      simp only [hdiv, if_neg hdiv]
      have hf : 0 < f := by
        by_contra hf0
        have : f = 0 := by omega
        subst this
        simp at hn
        omega
      have hlt : n / 10 < 10 ^ f := by
        apply Nat.div_lt_of_lt_mul
        calc n < 10 ^ (f + 1) := hn
        _ = 10 * 10 ^ f := by ring
      rw [ih (n / 10) (Nat.digitChar (n % 10) :: ds) hlt hf]
      conv_rhs => rw [natRep]
      rw [if_neg h10]
      simp

theorem toDigits_eq_natRep (n : ℕ) : Nat.toDigits 10 n = natRep n := by
  rw [Nat.toDigits, toDigitsCore_eq_natRep (n + 1) n [] _ (by omega)]
  · simp
  · calc n < 10 ^ n := Nat.lt_pow_self (by omega) n
    _ ≤ 10 ^ (n + 1) := Nat.pow_le_pow_right (by omega) (by omega)

/-- Decimal value of a digit string (left fold, most significant first). -/
def decVal (ds : List Char) : ℕ :=
  ds.foldl (fun a c => 10 * a + (c.toNat - 48)) 0

theorem decVal_append_digit (ds : List Char) (c : Char) :
    decVal (ds ++ [c]) = 10 * decVal ds + (c.toNat - 48) := by
  simp [decVal, List.foldl_append]

theorem digitChar_val (d : ℕ) (hd : d < 10) : (Nat.digitChar d).toNat - 48 = d := by
  interval_cases d <;> decide

theorem decVal_natRep (n : ℕ) : decVal (natRep n) = n := by
  induction n using Nat.strong_induction_on with
  | _ n ih =>
    by_cases h10 : n < 10
    · rw [natRep, if_pos h10]
      simp [decVal, digitChar_val n h10]
    · rw [natRep, if_neg h10]
      rw [decVal_append_digit, ih (n / 10) (Nat.div_lt_self (by omega) (by omega)),
        digitChar_val (n % 10) (Nat.mod_lt _ (by omega))]
      omega

theorem natRep_injective : Function.Injective natRep := by
  intro m n h
  have := congrArg decVal h
  rwa [decVal_natRep, decVal_natRep] at this

theorem nat_repr_injective : Function.Injective Nat.repr := by
  intro m n h
  apply natRep_injective
  have hdata : (Nat.repr m).data = (Nat.repr n).data := by rw [h]
  simpa [Nat.repr, List.asString, toDigits_eq_natRep] using hdata

/-! ### Character-level Python string operations -/

/-- The whitespace characters `str.strip()` removes (the ASCII ones;
the repository only manipulates ASCII prompt text). -/
def isPySpace (c : Char) : Bool :=
  c = ' ' || c = '\t' || c = '\n' || c = '\r' || c = Char.ofNat 11 || c = Char.ofNat 12

/-- Python `s.strip()`: drop leading and trailing whitespace. -/
def pyStrip (s : List Char) : List Char :=
  ((s.dropWhile isPySpace).reverse.dropWhile isPySpace).reverse

/-- Python `m in s`: does `m` occur as a contiguous substring of `s`? -/
def listContains (m : List Char) : List Char → Bool
  | [] => m.isEmpty
  | c :: cs => m.isPrefixOf (c :: cs) || listContains m cs

/-- Python `m in s` at `String` level. -/
def strContains (m s : String) : Bool := listContains m.data s.data

theorem listContains_iff (m : List Char) :
    ∀ s : List Char, listContains m s = true ↔ ∃ a t, s = a ++ m ++ t := by
  intro s
  induction s with
  | nil =>
    simp only [listContains]
    constructor
    · intro h
      have hm : m = [] := by
        cases m with
        | nil => rfl
        | cons x xs => simp [List.isEmpty] at h
      exact ⟨[], [], by simp [hm]⟩
    · rintro ⟨a, t, h⟩
      have := congrArg List.length h
      simp only [List.length_nil, List.length_append] at this
      have hm : m = [] := List.length_eq_zero.1 (by omega)
      simp [hm, List.isEmpty]
  | cons c cs ih =>
    simp only [listContains, Bool.or_eq_true]
    constructor
    · rintro (h | h)
      · rcases List.isPrefixOf_iff_prefix.1 h with ⟨t, ht⟩
        exact ⟨[], t, by simp [ht.symm]⟩
      · rcases ih.1 h with ⟨a, t, rfl⟩
        exact ⟨c :: a, t, rfl⟩
    · rintro ⟨a, t, h⟩
      cases a with
      | nil =>
        left
        exact List.isPrefixOf_iff_prefix.2 ⟨t, by simpa using h.symm⟩
      | cons a as =>
        right
        have h' := h
        simp only [List.cons_append, List.cons.injEq] at h'
        exact ih.2 ⟨as, t, h'.2⟩

/-! ### C1: the deduplication policy of `serve_adapted.py`

A retrieved chunk, as the dedup code sees it.  `title` and `link` model
`d.metadata.get("Title") or d.metadata.get("title")` resp.
`d.metadata.get("Link") or d.metadata.get("link")` (one collapsed optional
field each); `dist` is the score paired with the document. -/
structure PDoc where
  title : Option String
  link : Option String
  dist : ℚ
deriving DecidableEq

/-- The dedup key of a document: its link, where both an absent link and an
empty-string link count as missing (Python falsiness in
`if not link` / `... or f"N/A-..."`). -/
def goodLink (d : PDoc) : Option String :=
  match d.link with
  | none => none
  | some l => if l = "" then none else some l

/-- `d.metadata.get("Title") or d.metadata.get("title") or "Untitled"`. -/
def titleOf (d : PDoc) : String :=
  match d.title with
  | none => "Untitled"
  | some t => if t = "" then "Untitled" else t

/-- `_distinct_by_link` from `serve_adapted.py` (lines 86-96), with the `seen`
set threaded explicitly:

    seen = set(); out = []
    for d in docs:
        link = d.metadata.get("Link") or d.metadata.get("link")
        if not link or link in seen: continue
        seen.add(link); out.append(d)
-/
def distinct_by_link_go (seen : List String) : List PDoc → List PDoc
  | [] => []
  | d :: ds =>
    match goodLink d with
    | none => distinct_by_link_go seen ds
    | some l =>
      if l ∈ seen then distinct_by_link_go seen ds
      else d :: distinct_by_link_go (l :: seen) ds

/-- `_distinct_by_link(docs)`. -/
def distinct_by_link (docs : List PDoc) : List PDoc := distinct_by_link_go [] docs

/-- An entry of the `picked` list in `api_search` (lines 249-257):
`{"title": title, "link": link, "distance": float(dist)}`. -/
structure TEntry where
  title : String
  link : String
  dist : ℚ
deriving DecidableEq

/-- The synthetic key `f"N/A-{len(used)}"` assigned to a document without a
link in the top-results loop of `api_search` (line 252). -/
def pickPlaceholder (n : ℕ) : String := "N/A-" ++ Nat.repr n

/-- The dedup key the top-results loop assigns to a document:
`d.metadata.get("Link") or d.metadata.get("link") or f"N/A-{len(used)}"`. -/
def assignedKey (d : PDoc) (usedCount : ℕ) : String :=
  match goodLink d with
  | some l => l
  | none => pickPlaceholder usedCount

/-- The top-results selection loop of `api_search` (lines 249-257) without its
`len(picked) == k_top` early exit (the `k_top`-free tail of the loop):

    for d, dist in raw_top:
        title = ... or "Untitled"
        link = ... or f"N/A-{len(used)}"
        if link not in used:
            picked.append({...}); used.add(link)
-/
def pickAllGo (used : List String) : List PDoc → List TEntry
  | [] => []
  | d :: ds =>
    let l := assignedKey d used.length
    if l ∈ used then pickAllGo used ds
    else ⟨titleOf d, l, d.dist⟩ :: pickAllGo (l :: used) ds

/-- The top-results selection loop as written, including the
`if len(picked) == k_top: break` check at the end of each iteration. -/
def pickGo (kTop : ℕ) (used : List String) (picked : List TEntry) :
    List PDoc → List TEntry
  | [] => picked
  | d :: ds =>
    let l := assignedKey d used.length
    let p := if l ∈ used then picked else picked ++ [⟨titleOf d, l, d.dist⟩]
    let u := if l ∈ used then used else l :: used
    if p.length = kTop then p else pickGo kTop u p ds

/-- The loop of `api_search` step 3: `picked, used = [], set()` then the
selection loop over `raw_top`. -/
def pickTopPapers (kTop : ℕ) (docs : List PDoc) : List TEntry := pickGo kTop [] [] docs

/-- The untruncated selection (what the loop produces with no `k_top` cutoff). -/
def pickAllPapers (docs : List PDoc) : List TEntry := pickAllGo [] docs

/-- The number of distinct dedup keys of an input sequence, counting — as the
top-results path does — every key-less document as one fresh synthetic key. -/
def distinctKeyCount (docs : List PDoc) : ℕ :=
  (docs.filter (fun d => (goodLink d).isNone)).length
    + (keepFirst (docs.filterMap goodLink)).length

theorem pickPlaceholder_inj {m n : ℕ} (h : pickPlaceholder m = pickPlaceholder n) :
    m = n := by
  apply nat_repr_injective
  apply String.ext
  have hd := congrArg String.data h
  rw [pickPlaceholder, pickPlaceholder, String.data_append, String.data_append] at hd
  exact List.append_cancel_left hd

theorem natRep_ne_nil (n : ℕ) : natRep n ≠ [] := by
  rw [natRep]
  split
  · simp
  · simp

theorem ne_pickPlaceholder_of_short (s : String) (hs : s.length < 5) (n : ℕ) :
    s ≠ pickPlaceholder n := by
  intro h
  have hlen := congrArg String.length h
  rw [pickPlaceholder, String.length_append] at hlen
  have hrepr : 0 < (Nat.repr n).length := by
    have hdata : (Nat.repr n).data = natRep n := by
      simp [Nat.repr, List.asString, toDigits_eq_natRep]
    have : (Nat.repr n).length = (natRep n).length := by
      rw [String.length, hdata]
    rw [this]
    cases hnil : natRep n with
    | nil => exact absurd hnil (natRep_ne_nil n)
    | cons c cs => simp
  have : ("N/A-" : String).length = 4 := by decide
  omega

theorem distinct_go_sublist (ds : List PDoc) :
    ∀ seen, List.Sublist (distinct_by_link_go seen ds) ds := by
  induction ds with
  | nil => intro seen; simp [distinct_by_link_go]
  | cons d ds ih =>
    intro seen
    cases hg : goodLink d with
    | none =>
      simp only [distinct_by_link_go, hg]
      exact (ih seen).cons d
    | some l =>
      by_cases hmem : l ∈ seen
      · simp only [distinct_by_link_go, hg, if_pos hmem]
        exact (ih seen).cons d
      · simp only [distinct_by_link_go, hg, if_neg hmem]
        exact (ih (l :: seen)).cons₂ d

theorem distinct_go_isSome (ds : List PDoc) :
    ∀ seen, ∀ d ∈ distinct_by_link_go seen ds, (goodLink d).isSome := by
  induction ds with
  | nil => intro seen d hd; simp [distinct_by_link_go] at hd
  | cons d ds ih =>
    intro seen e he
    cases hg : goodLink d with
    | none =>
      simp only [distinct_by_link_go, hg] at he
      exact ih seen e he
    | some l =>
      by_cases hmem : l ∈ seen
      · simp only [distinct_by_link_go, hg, if_pos hmem] at he
        exact ih seen e he
      · simp only [distinct_by_link_go, hg, if_neg hmem] at he
        rcases List.mem_cons.1 he with rfl | he
        · simp [hg]
        · exact ih (l :: seen) e he

theorem distinct_go_filterMap (ds : List PDoc) :
    ∀ seen, (distinct_by_link_go seen ds).filterMap goodLink
      = keepFirst ((ds.filterMap goodLink).filter (fun l => decide (l ∉ seen))) := by
  induction ds with
  | nil => intro seen; simp [distinct_by_link_go, keepFirst]
  | cons d ds ih =>
    intro seen
    cases hg : goodLink d with
    | none =>
      simp only [distinct_by_link_go, hg]
      rw [ih seen, List.filterMap_cons_none hg]
    | some l =>
      by_cases hmem : l ∈ seen
      · simp only [distinct_by_link_go, hg, if_pos hmem]
        rw [ih seen, List.filterMap_cons_some hg,
          List.filter_cons_of_neg (by simp [hmem])]
      · simp only [distinct_by_link_go, hg, if_neg hmem]
        rw [List.filterMap_cons_some hg, ih (l :: seen),
          List.filterMap_cons_some hg,
          List.filter_cons_of_pos (by simp [hmem]), keepFirst,
          List.filter_filter]
        congr 1
        refine congrArg keepFirst (List.filter_congr ?_)
        intro x _
        by_cases h1 : x ∈ seen <;> by_cases h2 : x = l <;>
          simp [h1, h2, List.mem_cons]

theorem pickGo_eq_take (ds : List PDoc) :
    ∀ (kTop : ℕ) (used : List String) (picked : List TEntry),
      picked.length < kTop →
      pickGo kTop used picked ds = (picked ++ pickAllGo used ds).take kTop := by
  induction ds with
  | nil =>
    intro kTop used picked hlt
    rw [pickGo, pickAllGo, List.append_nil, List.take_of_length_le (le_of_lt hlt)]
  | cons d ds ih =>
    intro kTop used picked hlt
    simp only [pickGo, pickAllGo]
    by_cases hmem : assignedKey d used.length ∈ used
    · simp only [if_pos hmem]
      rw [if_neg (Nat.ne_of_lt hlt)]
      exact ih kTop used picked hlt
    · simp only [if_neg hmem]
      by_cases hk : (picked ++ [(⟨titleOf d, assignedKey d used.length, d.dist⟩ : TEntry)]).length = kTop
      · rw [if_pos hk]
        rw [show picked ++ (⟨titleOf d, assignedKey d used.length, d.dist⟩ : TEntry)
              :: pickAllGo (assignedKey d used.length :: used) ds
            = (picked ++ [(⟨titleOf d, assignedKey d used.length, d.dist⟩ : TEntry)])
              ++ pickAllGo (assignedKey d used.length :: used) ds by simp]
        rw [← hk, List.take_left]
      · rw [if_neg hk]
        have hlt2 : (picked ++ [(⟨titleOf d, assignedKey d used.length, d.dist⟩ : TEntry)]).length < kTop := by
          rw [List.length_append, List.length_cons, List.length_nil] at hk ⊢
          omega
        rw [ih kTop _ _ hlt2]
        congr 1
        simp

theorem pickAllGo_nodup_and_fresh (ds : List PDoc) :
    ∀ used, ((pickAllGo used ds).map TEntry.link).Nodup
      ∧ ∀ e ∈ pickAllGo used ds, e.link ∉ used := by
  induction ds with
  | nil => intro used; simp [pickAllGo]
  | cons d ds ih =>
    intro used
    simp only [pickAllGo]
    by_cases hmem : assignedKey d used.length ∈ used
    · simp only [if_pos hmem]
      exact ih used
    · simp only [if_neg hmem]
      obtain ⟨ihnodup, ihfresh⟩ := ih (assignedKey d used.length :: used)
      constructor
      · rw [List.map_cons, List.nodup_cons]
        refine ⟨?_, ihnodup⟩
        intro hin
        rcases List.mem_map.1 hin with ⟨e, he, helink⟩
        exact (ihfresh e he) (helink ▸ List.mem_cons_self _ _)
      · intro e he
        rcases List.mem_cons.1 he with rfl | he
        · exact hmem
        · exact fun hin => (ihfresh e he) (List.mem_cons_of_mem _ hin)

theorem pickAllGo_order (ds : List PDoc) :
    ∀ used, List.Sublist ((pickAllGo used ds).map (fun e => (e.title, e.dist)))
      (ds.map (fun d => (titleOf d, d.dist))) := by
  induction ds with
  | nil => intro used; simp [pickAllGo]
  | cons d ds ih =>
    intro used
    simp only [pickAllGo, List.map_cons]
    by_cases hmem : assignedKey d used.length ∈ used
    · simp only [if_pos hmem]
      exact (ih used).cons _
    · simp only [if_neg hmem, List.map_cons]
      exact (ih _).cons₂ _

theorem pickAllGo_length (ds : List PDoc) :
    ∀ used,
      (∀ d ∈ ds, ∀ n : ℕ, goodLink d ≠ some (pickPlaceholder n)) →
      (∀ j, used.length ≤ j → pickPlaceholder j ∉ used) →
      (pickAllGo used ds).length =
        (ds.filter (fun d => (goodLink d).isNone)).length
          + (keepFirst ((ds.filterMap goodLink).filter (fun l => decide (l ∉ used)))).length := by
  induction ds with
  | nil => intro used _ _; simp [pickAllGo, keepFirst]
  | cons d ds ih =>
    intro used hNA hQ
    have hNAd : ∀ n : ℕ, goodLink d ≠ some (pickPlaceholder n) :=
      hNA d (List.mem_cons_self _ _)
    have hNArest : ∀ d' ∈ ds, ∀ n : ℕ, goodLink d' ≠ some (pickPlaceholder n) :=
      fun d' h => hNA d' (List.mem_cons_of_mem _ h)
    cases hg : goodLink d with
    | none =>
      have hfresh : pickPlaceholder used.length ∉ used := hQ _ le_rfl
      have hkey : assignedKey d used.length = pickPlaceholder used.length := by
        simp [assignedKey, hg]
      have hQ2 : ∀ j, (pickPlaceholder used.length :: used).length ≤ j →
          pickPlaceholder j ∉ pickPlaceholder used.length :: used := by
        intro j hj hmem
        simp only [List.length_cons] at hj
        rcases List.mem_cons.1 hmem with heq | hmem'
        · exact absurd (pickPlaceholder_inj heq) (by omega)
        · exact hQ j (by omega) hmem'
      simp only [pickAllGo, hkey, if_neg hfresh]
      rw [List.length_cons, ih (pickPlaceholder used.length :: used) hNArest hQ2,
        List.filter_cons_of_pos (by simp [hg]), List.length_cons,
        List.filterMap_cons_none hg]
      have hflt : (ds.filterMap goodLink).filter
            (fun l => decide (l ∉ pickPlaceholder used.length :: used))
          = (ds.filterMap goodLink).filter (fun l => decide (l ∉ used)) := by
        apply List.filter_congr
        intro x hx
        rcases List.mem_filterMap.1 hx with ⟨d', hd', hgd'⟩
        have hxne : x ≠ pickPlaceholder used.length := by
          intro hxe
          exact hNArest d' hd' used.length (by rw [hgd', hxe])
        by_cases h1 : x ∈ used <;> simp [h1, List.mem_cons, hxne]
      rw [hflt]
      omega
    | some l =>
      have hkey : assignedKey d used.length = l := by simp [assignedKey, hg]
      by_cases hmem : l ∈ used
      · simp only [pickAllGo, hkey, if_pos hmem]
        rw [ih used hNArest hQ, List.filter_cons_of_neg (by simp [hg]),
          List.filterMap_cons_some hg, List.filter_cons_of_neg (by simp [hmem])]
      · have hQ2 : ∀ j, (l :: used).length ≤ j → pickPlaceholder j ∉ l :: used := by
          intro j hj hmem2
          simp only [List.length_cons] at hj
          rcases List.mem_cons.1 hmem2 with heq | hmem'
          · exact hNAd j (by rw [hg, heq])
          · exact hQ j (by omega) hmem'
        simp only [pickAllGo, hkey, if_neg hmem]
        rw [List.length_cons, ih (l :: used) hNArest hQ2,
          List.filter_cons_of_neg (by simp [hg]), List.filterMap_cons_some hg,
          List.filter_cons_of_pos (by simp [hmem]), keepFirst, List.length_cons,
          List.filter_filter]
        have hflt : (ds.filterMap goodLink).filter (fun x => decide (x ∉ l :: used))
            = (ds.filterMap goodLink).filter
                (fun a => decide (a ≠ l) && decide (a ∉ used)) := by
          apply List.filter_congr
          intro x _
          by_cases h1 : x ∈ used <;> by_cases h2 : x = l <;>
            simp [h1, h2, List.mem_cons]
        rw [hflt]
        omega

/-- **C1, counterexample.** The claim quantifies over *every* target count
`k`; at `k = 0` the top-results loop of `api_search` never takes its
`len(picked) == k_top` break (the check runs only after an append, and an
appended list has length `≥ 1 ≠ 0`), so on a one-document input it returns
one entry while `min(0, #distinct keys) = 0`. -/
theorem C1_counterexample :
    (pickTopPapers 0 [⟨some "t", some "a", 0⟩]).length ≠
      min 0 (distinctKeyCount [⟨some "t", some "a", 0⟩]) := by
  rw [Nat.zero_min]
  decide

/-- **C1** (amended): for every input sequence of scored documents and every
target count `k ≥ 1`, provided no document's link collides with a synthetic
placeholder key (a string `"N/A-" ++ n`), the dedup policy of
`serve_adapted.py` satisfies, on the pooled-summary path `_distinct_by_link`:
no two output entries share a link, the output is an in-order subsequence of
the input keeping exactly the first occurrence of each present link, and
documents lacking the link are dropped; and on the top-results path of
`api_search`: output links are pairwise distinct, the truncated selection is
the `k`-prefix of the untruncated one (so input order of first occurrences is
preserved), and its length is `min(k, number of distinct dedup keys)`, where
every key-less document counts as one fresh synthetic key (so such documents
are never silently lost). -/
theorem C1_dedup_policy (docs : List PDoc) (k : ℕ) (hk : 1 ≤ k)
    (hNA : ∀ d ∈ docs, ∀ n : ℕ, goodLink d ≠ some (pickPlaceholder n)) :
    ((distinct_by_link docs).filterMap goodLink).Nodup
    ∧ List.Sublist (distinct_by_link docs) docs
    ∧ (distinct_by_link docs).filterMap goodLink = keepFirst (docs.filterMap goodLink)
    ∧ (∀ d ∈ distinct_by_link docs, (goodLink d).isSome)
    ∧ ((pickTopPapers k docs).map TEntry.link).Nodup
    ∧ pickTopPapers k docs = (pickAllPapers docs).take k
    ∧ List.Sublist ((pickAllPapers docs).map (fun e => (e.title, e.dist)))
        (docs.map (fun d => (titleOf d, d.dist)))
    ∧ (pickTopPapers k docs).length = min k (distinctKeyCount docs)
    ∧ (pickAllPapers docs).length = distinctKeyCount docs := by
  have h3 : (distinct_by_link docs).filterMap goodLink
      = keepFirst (docs.filterMap goodLink) := by
    have h := distinct_go_filterMap docs []
    simpa [distinct_by_link] using h
  have hallnodup := (pickAllGo_nodup_and_fresh docs []).1
  have hlen : (pickAllPapers docs).length = distinctKeyCount docs := by
    have h := pickAllGo_length docs [] hNA (by intro j _ h; simp at h)
    simpa [pickAllPapers, distinctKeyCount] using h
  have htake : pickTopPapers k docs = (pickAllPapers docs).take k := by
    have h := pickGo_eq_take docs k [] [] (by simpa using hk)
    simpa [pickTopPapers, pickAllPapers] using h
  refine ⟨h3 ▸ keepFirst_nodup _, distinct_go_sublist docs [], h3,
    distinct_go_isSome docs [], ?_, htake, pickAllGo_order docs [], ?_, hlen⟩
  · rw [htake]
    exact List.Nodup.sublist (List.Sublist.map _ (List.take_sublist _ _)) hallnodup
  · rw [htake, List.length_take, hlen]

/-- **C1, witness**: the amended dedup theorem applied to a concrete
three-document input (a duplicated link plus one key-less document) with
`k = 2`. -/
theorem C1_dedup_policy_witness :
    (1 ≤ 2
      ∧ (∀ d ∈ ([⟨some "T1", some "a", 0⟩, ⟨none, none, 1⟩,
          ⟨some "T2", some "a", 2⟩] : List PDoc), ∀ n : ℕ,
          goodLink d ≠ some (pickPlaceholder n)))
    ∧ (pickTopPapers 2 [⟨some "T1", some "a", 0⟩, ⟨none, none, 1⟩,
        ⟨some "T2", some "a", 2⟩]).length
      = min 2 (distinctKeyCount [⟨some "T1", some "a", 0⟩, ⟨none, none, 1⟩,
        ⟨some "T2", some "a", 2⟩]) := by
  have hNA : ∀ d ∈ ([⟨some "T1", some "a", 0⟩, ⟨none, none, 1⟩,
      ⟨some "T2", some "a", 2⟩] : List PDoc), ∀ n : ℕ,
      goodLink d ≠ some (pickPlaceholder n) := by
    intro d hd n
    have ha : ∀ h : "a" = pickPlaceholder n, False := fun h =>
      ne_pickPlaceholder_of_short "a" (by decide) n h
    simp only [List.mem_cons, List.not_mem_nil, or_false] at hd
    rcases hd with rfl | rfl | rfl
    · intro h
      exact ha (Option.some.inj (by simpa [goodLink] using h))
    · simp [goodLink]
    · intro h
      exact ha (Option.some.inj (by simpa [goodLink] using h))
  exact ⟨⟨by decide, hNA⟩,
    (C1_dedup_policy _ 2 (by decide) hNA).2.2.2.2.2.2.2.1⟩

/-! ### C3: distance-to-similarity conversion -/

/-- `similarity = 1.0 - min(paper["distance"], 1.0)` as computed in the
`/api/search` result path (`serve_adapted.py` line 290). -/
def api_search_similarity (d : ℚ) : ℚ := 1 - min d 1

/-- `similarity = 1.0 - min(rel_paper["distance"], 1.0)` as computed in the
`/api/search_paper` result path (`serve_adapted.py` line 399). -/
def api_search_paper_similarity (d : ℚ) : ℚ := 1 - min d 1

/-- **C3**: for every distance `d ≥ 0` the converted similarity equals
`1 - min(d, 1)` and lies in `[0, 1]`, in both the `/api/search` and
`/api/search_paper` result paths; `d = 0 ↦ 1.0`, `d = 1 ↦ 0.0`,
`d = 5 ↦ 0.0`. -/
theorem C3_similarity_conversion (d : ℚ) (hd : 0 ≤ d) :
    api_search_similarity d = 1 - min d 1
    ∧ api_search_paper_similarity d = 1 - min d 1
    ∧ 0 ≤ api_search_similarity d ∧ api_search_similarity d ≤ 1
    ∧ 0 ≤ api_search_paper_similarity d ∧ api_search_paper_similarity d ≤ 1
    ∧ api_search_similarity 0 = 1 ∧ api_search_similarity 1 = 0
    ∧ api_search_similarity 5 = 0
    ∧ api_search_paper_similarity 0 = 1 ∧ api_search_paper_similarity 1 = 0
    ∧ api_search_paper_similarity 5 = 0 := by
  have h1 : min d 1 ≤ 1 := min_le_right d 1
  have h2 : 0 ≤ min d 1 := le_min hd (by norm_num)
  refine ⟨rfl, rfl, ?_, ?_, ?_, ?_, ?_, ?_, ?_, ?_, ?_, ?_⟩ <;>
    simp [api_search_similarity, api_search_paper_similarity] <;> linarith

/-- **C3, witness**: the conversion theorem applied at `d = 5`. -/
theorem C3_similarity_conversion_witness :
    (0 : ℚ) ≤ 5 ∧ (0 ≤ api_search_similarity 5 ∧ api_search_similarity 5 ≤ 1) := by
  refine ⟨by norm_num, ?_, ?_⟩
  · exact (C3_similarity_conversion 5 (by norm_num)).2.2.1
  · exact (C3_similarity_conversion 5 (by norm_num)).2.2.2.1

/-! ### C4: paper-registry registration semantics -/

/-- A `PaperInfo` record of `serve_adapted.py` (lines 60-67). -/
structure PaperInfo where
  session_id : String
  link : String
  title : String
  query : String
  summary : String
deriving DecidableEq

/-- `PAPER_REGISTRY`: a dict from UUID string to `PaperInfo` (line 70). -/
abbrev Registry := List (String × PaperInfo)

/-- Registration as performed by `/api/search` (lines 279-285):
`PAPER_REGISTRY[paper_uuid] = PaperInfo(...)` — an unconditional dict
assignment, which overwrites any existing binding and raises no error. -/
def register_search_path (reg : Registry) (uuid : String) (info : PaperInfo) :
    Registry :=
  dictInsert uuid info reg

/-- Registration as performed by `/api/search_paper` (lines 387-395):
`if rel_uuid not in PAPER_REGISTRY: PAPER_REGISTRY[rel_uuid] = PaperInfo(...)`
— the record is stored only when the identifier is absent. -/
def register_search_paper_path (reg : Registry) (uuid : String) (info : PaperInfo) :
    Registry :=
  match dictLookup uuid reg with
  | some _ => reg
  | none => dictInsert uuid info reg

/-- **C4, counterexample.** On the `/api/search_paper` path, registering the
same identifier twice with different payloads leaves the *first* payload in
the registry, not the second: the claim's last-write-wins property fails for
that path. -/
theorem C4_counterexample :
    dictLookup "u" (register_search_paper_path
        (register_search_paper_path [] "u" ⟨"s1", "l1", "t1", "q1", "m1"⟩)
        "u" ⟨"s2", "l2", "t2", "q2", "m2"⟩)
      = some ⟨"s1", "l1", "t1", "q1", "m1"⟩
    ∧ (⟨"s1", "l1", "t1", "q1", "m1"⟩ : PaperInfo) ≠ ⟨"s2", "l2", "t2", "q2", "m2"⟩ := by
  constructor <;> decide

/-- **C4** (amended): registering the same identifier twice with different
payloads never errors (both operations are total); on the `/api/search` path
the second payload wins (last-write-wins dict assignment), while on the
`/api/search_paper` path the first binding present wins (insert-if-absent):
the registry afterwards holds the pre-existing record if there was one, and
otherwise the first payload. -/
theorem C4_registry_semantics (reg : Registry) (uuid : String) (p1 p2 : PaperInfo) :
    dictLookup uuid (register_search_path (register_search_path reg uuid p1) uuid p2)
      = some p2
    ∧ dictLookup uuid (register_search_paper_path
        (register_search_paper_path reg uuid p1) uuid p2)
      = some ((dictLookup uuid reg).getD p1) := by
  constructor
  · exact dictLookup_dictInsert_self uuid p2 _
  · cases h : dictLookup uuid reg with
    | some q =>
      have hinner : register_search_paper_path reg uuid p1 = reg := by
        simp only [register_search_paper_path, h]
      simp only [hinner, register_search_paper_path, h, Option.getD_some]
    | none =>
      have hinner : register_search_paper_path reg uuid p1 = dictInsert uuid p1 reg := by
        simp only [register_search_paper_path, h]
      have h2 : dictLookup uuid (dictInsert uuid p1 reg) = some p1 :=
        dictLookup_dictInsert_self uuid p1 reg
      simp only [hinner, register_search_paper_path, h2, h, Option.getD_none]

/-! ### C5: extraction of the generated continuation from raw model output

Python `s.split(sep)[-1]` scans `s` left to right, splitting at each
(non-overlapping, leftmost-first) occurrence of `sep`; its last element is the
text after the final occurrence.  We model that scan with an explicit fuel
argument (one unit per character, so `fuel = s.length` always suffices) to
keep the function structurally recursive. -/

def afterLastF (m0 : Char) (mr : List Char) : ℕ → List Char → List Char
  | _, [] => []
  | 0, s => s
  | fuel + 1, c :: cs =>
    if (m0 :: mr).isPrefixOf (c :: cs) then afterLastF m0 mr fuel (cs.drop mr.length)
    else if listContains (m0 :: mr) cs then afterLastF m0 mr fuel cs
    else c :: cs

/-- Python `s.split(m)[-1]` (for the non-empty separators used here). -/
def splitTail (m s : List Char) : List Char :=
  match m with
  | [] => s
  | m0 :: mr => afterLastF m0 mr s.length s

theorem afterLastF_no_occurrence (m0 : Char) (mr : List Char) :
    ∀ (fuel : ℕ) (s : List Char), s.length ≤ fuel →
      listContains (m0 :: mr) s = false → afterLastF m0 mr fuel s = s := by
  intro fuel
  induction fuel with
  | zero =>
    intro s hs _
    cases s with
    | nil => rfl
    | cons c cs => simp at hs
  | succ fuel ih =>
    intro s hs hc
    cases s with
    | nil => rfl
    | cons c cs =>
      rw [listContains] at hc
      have hpre : (m0 :: mr).isPrefixOf (c :: cs) = false := by
        cases h : (m0 :: mr).isPrefixOf (c :: cs) <;> simp [h] at hc ⊢
      have hrest : listContains (m0 :: mr) cs = false := by
        cases h : listContains (m0 :: mr) cs <;> simp [h] at hc ⊢
      rw [afterLastF, if_neg (by simp [hpre]), if_neg (by simp [hrest])]

theorem afterLastF_spec (m0 : Char) (mr : List Char) :
    ∀ (fuel : ℕ) (s : List Char), s.length ≤ fuel →
      listContains (m0 :: mr) s = true →
      ∃ a, s = a ++ (m0 :: mr) ++ afterLastF m0 mr fuel s
        ∧ listContains (m0 :: mr) (afterLastF m0 mr fuel s) = false := by
  intro fuel
  induction fuel with
  | zero =>
    intro s hs hc
    cases s with
    | nil => simp [listContains, List.isEmpty] at hc
    | cons c cs => simp at hs
  | succ fuel ih =>
    intro s hs hc
    cases s with
    | nil => simp [listContains, List.isEmpty] at hc
    | cons c cs =>
      by_cases hpre : (m0 :: mr).isPrefixOf (c :: cs) = true
      · rcases List.isPrefixOf_iff_prefix.1 hpre with ⟨t, ht⟩
        have hcs : cs = mr ++ t := by
          have := ht
          simp only [List.cons_append, List.cons.injEq, List.append_assoc] at this
          exact this.2.symm
        have hdrop : cs.drop mr.length = t := by
          rw [hcs, List.drop_left]
        have hlen : (cs.drop mr.length).length ≤ fuel := by
          have h1 : (cs.drop mr.length).length ≤ cs.length := by
            rw [List.length_drop]; omega
          have h2 : cs.length + 1 ≤ fuel + 1 := by simpa using hs
          omega
        rw [afterLastF, if_pos hpre]
        by_cases hct : listContains (m0 :: mr) (cs.drop mr.length) = true
        · rcases ih (cs.drop mr.length) hlen hct with ⟨a, ha, hnone⟩
          refine ⟨(m0 :: mr) ++ a, ?_, hnone⟩
          calc c :: cs = (m0 :: mr) ++ t := by rw [← ht.symm]
          _ = (m0 :: mr) ++ (a ++ (m0 :: mr) ++ afterLastF m0 mr fuel (cs.drop mr.length)) := by
              rw [hdrop] at ha ⊢; rw [← ha]
          _ = (m0 :: mr) ++ a ++ (m0 :: mr) ++ afterLastF m0 mr fuel (cs.drop mr.length) := by
              simp [List.append_assoc]
        · have hcf : listContains (m0 :: mr) (cs.drop mr.length) = false := by
            cases h : listContains (m0 :: mr) (cs.drop mr.length)
            · rfl
            · exact absurd h hct
          rw [afterLastF_no_occurrence m0 mr fuel _ hlen hcf]
          exact ⟨[], by simpa [hdrop] using ht.symm, hcf⟩
      · have hpre' : (m0 :: mr).isPrefixOf (c :: cs) = false := by
          cases h : (m0 :: mr).isPrefixOf (c :: cs)
          · rfl
          · exact absurd h hpre
        have hrest : listContains (m0 :: mr) cs = true := by
          rw [listContains, hpre'] at hc
          simpa using hc
        have hlen : cs.length ≤ fuel := by simpa using hs
        rcases ih cs hlen hrest with ⟨a, ha, hnone⟩
        rw [afterLastF, if_neg (by simp [hpre']), if_pos hrest]
        exact ⟨c :: a, by simpa using ha, hnone⟩

/-- `splitTail` computes the suffix after the *last* occurrence of the
separator: the input decomposes around an occurrence of `m` followed exactly
by the result, and the result contains no further occurrence. -/
theorem splitTail_last_occurrence (m0 : Char) (mr s : List Char)
    (h : listContains (m0 :: mr) s = true) :
    ∃ a, s = a ++ (m0 :: mr) ++ splitTail (m0 :: mr) s
      ∧ listContains (m0 :: mr) (splitTail (m0 :: mr) s) = false := by
  simpa [splitTail] using afterLastF_spec m0 mr s.length s le_rfl h

/-- `"Concise summary:"`, the terminal marker of the summary prompt. -/
def conciseMarker : List Char := "Concise summary:".data

/-- `"Retrieved Snippets:"`, the earlier anchor of the summary prompt. -/
def retrievedAnchor : List Char := "Retrieved Snippets:".data

/-- `"Grounded answer:"`, the terminal marker of the paper-chat prompt. -/
def groundedMarker : List Char := "Grounded answer:".data

/-- `"User message:"`, the earlier anchor of the paper-chat prompt. -/
def userAnchor : List Char := "User message:".data

/-- Summary extraction of `api_search` (`serve_adapted.py` lines 238-243),
operating on the already-stripped `llm_output`:

    if "Concise summary:" in llm_output:
        summary = llm_output.split("Concise summary:")[-1].strip()
    else:
        summary = llm_output.split("Retrieved Snippets:")[-1].strip() \
            if "Retrieved Snippets:" in llm_output else llm_output
-/
def extract_summary (out : List Char) : List Char :=
  if listContains conciseMarker out then pyStrip (splitTail conciseMarker out)
  else if listContains retrievedAnchor out then pyStrip (splitTail retrievedAnchor out)
  else out

/-- The full `api_search` summary pipeline from the raw LLM completion:
line 234 applies `.strip()` to the raw output, lines 238-243 extract. -/
def extract_summary_pipeline (raw : List Char) : List Char :=
  extract_summary (pyStrip raw)

/-- Answer extraction of `api_chat` (`serve_adapted.py` lines 505-509),
same shape with `"Grounded answer:"` / `"User message:"`. -/
def extract_answer (out : List Char) : List Char :=
  if listContains groundedMarker out then pyStrip (splitTail groundedMarker out)
  else if listContains userAnchor out then pyStrip (splitTail userAnchor out)
  else out

/-- The full `api_chat` answer pipeline (strip at line 501, extraction at
lines 505-509). -/
def extract_answer_pipeline (raw : List Char) : List Char :=
  extract_answer (pyStrip raw)

theorem extract_marker_case (m : List Char) (hm : m ≠ []) (s : List Char)
    (h : listContains m s = true) :
    ∃ a, s = a ++ m ++ splitTail m s ∧ listContains m (splitTail m s) = false := by
  cases m with
  | nil => exact absurd rfl hm
  | cons m0 mr => exact splitTail_last_occurrence m0 mr s h

/-- **C5**: for every raw model output, extraction returns the
whitespace-trimmed text following the *last* occurrence of the terminal
marker (`"Concise summary:"` / `"Grounded answer:"`): the stripped raw output
decomposes as `a ++ marker ++ t` with no further occurrence of the marker in
`t`, and the result is `t` trimmed.  If the marker is absent, the same holds
for the earlier anchor (`"Retrieved Snippets:"` / `"User message:"`), and if
that too is absent the (stripped) raw output is returned unchanged. -/
theorem C5_extraction (raw : List Char) :
    (listContains conciseMarker (pyStrip raw) = true →
      ∃ a t, pyStrip raw = a ++ conciseMarker ++ t
        ∧ listContains conciseMarker t = false
        ∧ extract_summary_pipeline raw = pyStrip t)
    ∧ (listContains conciseMarker (pyStrip raw) = false →
        listContains retrievedAnchor (pyStrip raw) = true →
      ∃ a t, pyStrip raw = a ++ retrievedAnchor ++ t
        ∧ listContains retrievedAnchor t = false
        ∧ extract_summary_pipeline raw = pyStrip t)
    ∧ (listContains conciseMarker (pyStrip raw) = false →
        listContains retrievedAnchor (pyStrip raw) = false →
      extract_summary_pipeline raw = pyStrip raw)
    ∧ (listContains groundedMarker (pyStrip raw) = true →
      ∃ a t, pyStrip raw = a ++ groundedMarker ++ t
        ∧ listContains groundedMarker t = false
        ∧ extract_answer_pipeline raw = pyStrip t)
    ∧ (listContains groundedMarker (pyStrip raw) = false →
        listContains userAnchor (pyStrip raw) = true →
      ∃ a t, pyStrip raw = a ++ userAnchor ++ t
        ∧ listContains userAnchor t = false
        ∧ extract_answer_pipeline raw = pyStrip t)
    ∧ (listContains groundedMarker (pyStrip raw) = false →
        listContains userAnchor (pyStrip raw) = false →
      extract_answer_pipeline raw = pyStrip raw) := by
  refine ⟨?_, ?_, ?_, ?_, ?_, ?_⟩
  · intro h
    obtain ⟨a, ha, hnone⟩ := extract_marker_case conciseMarker (by decide) _ h
    exact ⟨a, splitTail conciseMarker (pyStrip raw), ha, hnone,
      by simp [extract_summary_pipeline, extract_summary, h]⟩
  · intro h1 h2
    obtain ⟨a, ha, hnone⟩ := extract_marker_case retrievedAnchor (by decide) _ h2
    exact ⟨a, splitTail retrievedAnchor (pyStrip raw), ha, hnone,
      by simp [extract_summary_pipeline, extract_summary, h1, h2]⟩
  · intro h1 h2
    simp [extract_summary_pipeline, extract_summary, h1, h2]
  · intro h
    obtain ⟨a, ha, hnone⟩ := extract_marker_case groundedMarker (by decide) _ h
    exact ⟨a, splitTail groundedMarker (pyStrip raw), ha, hnone,
      by simp [extract_answer_pipeline, extract_answer, h]⟩
  · intro h1 h2
    obtain ⟨a, ha, hnone⟩ := extract_marker_case userAnchor (by decide) _ h2
    exact ⟨a, splitTail userAnchor (pyStrip raw), ha, hnone,
      by simp [extract_answer_pipeline, extract_answer, h1, h2]⟩
  · intro h1 h2
    simp [extract_answer_pipeline, extract_answer, h1, h2]

/-- **C5, witness**: the extraction theorem applied to the claim's concrete
scenario, plus the two concrete evaluations the claim states. -/
theorem C5_extraction_witness :
    listContains conciseMarker
        (pyStrip "...Concise summary:\n  The paper finds X.".data) = true
    ∧ (∃ a t, pyStrip "...Concise summary:\n  The paper finds X.".data
          = a ++ conciseMarker ++ t
        ∧ listContains conciseMarker t = false
        ∧ extract_summary_pipeline "...Concise summary:\n  The paper finds X.".data
          = pyStrip t)
    ∧ extract_summary_pipeline "...Concise summary:\n  The paper finds X.".data
        = "The paper finds X.".data
    ∧ extract_summary_pipeline "  no marker here ".data = "no marker here".data := by
  refine ⟨by decide, (C5_extraction _).1 (by decide), by decide, by decide⟩

/-! ### The request handlers of `serve_adapted.py`

The vector store, the LLM and the hash digests are external collaborators:
the handlers are modelled as functions of the values those calls return
(`neighs`/`docs` for retrieval results, `raw` for the LLM completion,
`linkToUuid` for `link_to_uuid`, which wraps `uuid.uuid5`). -/

/-- An HTTP response: `err status error message` models
`jsonify({"error": ..., "message": ...}), status`; `ok` a success payload. -/
inductive ApiResponse (α : Type) where
  | err (status : ℕ) (error message : String)
  | ok (payload : α)
deriving DecidableEq

/-- A session record of `SESSIONS` (`serve_adapted.py` lines 263-268 and
464-469).  `top3` keeps the (title, link) projection of each stored entry;
`history` is the ordered list of `(role, content)` pairs. -/
structure Session where
  orig_query : String
  system_summary : String
  top3 : List (String × String)
  history : List (String × String)
deriving DecidableEq

/-- `SESSIONS`: dict from session id to session record. -/
abbrev Sessions := List (String × Session)

/-- Python `s[:n]` on strings (slice of the first `n` code points). -/
def strTake (s : String) (n : ℕ) : String := ⟨s.data.take n⟩

/-- Python `round(x, 2)` on our exact rationals: round to the nearest
hundredth.  (Python rounds half to even; every value this code rounds is an
exact multiple of `1/100`, on which both conventions are the identity.) -/
def roundTo2 (x : ℚ) : ℚ := (round (x * 100) : ℤ) / 100

/-- A response entry
`{"paper_id": ..., "metadata": {"title": ..., "summary": ...}, "similarity": ...}`. -/
structure PaperOut where
  paper_id : String
  title : String
  summary : String
  similarity : ℚ
deriving DecidableEq

/-- The related-papers selection loop of `api_search_paper` (lines 366-376):

    related = []; used = {link}
    for d, dist in neighs:
        lnk = d.metadata.get("Link") or d.metadata.get("link") or ""
        if lnk and lnk not in used:
            related.append({"title": ttl, "link": lnk, "distance": float(dist)})
            used.add(lnk)
        if len(related) >= k_related: break
-/
def related_loop (kRelated : ℕ) (used : List String) (related : List TEntry) :
    List PDoc → List TEntry
  | [] => related
  | d :: ds =>
    let r2 := match goodLink d with
      | some l => if l ∈ used then related else related ++ [⟨titleOf d, l, d.dist⟩]
      | none => related
    let u2 := match goodLink d with
      | some l => if l ∈ used then used else l :: used
      | none => used
    if kRelated ≤ r2.length then r2 else related_loop kRelated u2 r2 ds

/-- The registration-and-conversion loop of `api_search_paper`
(lines 381-408): register each related paper if absent, then emit the
response entry, whose summary is the (possibly pre-existing) registry
record's summary truncated to 2000 characters and whose similarity is
`round(1.0 - min(distance, 1.0), 2)`. -/
def register_related (linkToUuid : String → String) (info : PaperInfo) :
    Registry → List TEntry → Registry × List PaperOut
  | reg, [] => (reg, [])
  | reg, rel :: rels =>
    let uuid := linkToUuid rel.link
    let reg2 := match dictLookup uuid reg with
      | some _ => reg
      | none =>
        dictInsert uuid ⟨info.session_id, rel.link, rel.title, info.query, rel.title⟩ reg
    let summary := match dictLookup uuid reg2 with
      | some pinfo => pinfo.summary
      | none => ""
    let out := register_related linkToUuid info reg2 rels
    (out.1, ⟨uuid, rel.title, strTake summary 2000,
      roundTo2 (api_search_paper_similarity rel.dist)⟩ :: out.2)

/-- The `/api/search_paper` handler (`serve_adapted.py` lines 308-411), as a
function of the request (`pid` is the stripped `paper_id`, `uuidValid` the
outcome of the `uuid.UUID(paper_id)` parse) and of the retrieval result
`neighs`.  Returns the registry, sessions and response. -/
def api_search_paper (linkToUuid : String → String) (reg : Registry)
    (sessions : Sessions) (pid : String) (uuidValid : Bool) (kRelated : ℕ)
    (neighs : List PDoc) : Registry × Sessions × ApiResponse (List PaperOut) :=
  if pid = "" then
    (reg, sessions,
      .err 400 "Invalid request" "paper_id is required and must be a valid UUID")
  else if ¬uuidValid then
    (reg, sessions, .err 400 "Invalid request" "paper_id must be a valid UUID")
  else
    match dictLookup pid reg with
    | none => (reg, sessions, .err 404 "Not found" "Paper with specified ID not found")
    | some info =>
      let related := related_loop kRelated [info.link] [] neighs
      let out := register_related linkToUuid info reg related
      (out.1, sessions, .ok out.2)

/-- The `/api/chat` handler (`serve_adapted.py` lines 417-532) as a function
of the request, the per-paper retrieval result `docs` and the raw LLM
completion `raw`.  The relevant-sections payload models
`list(set(titles))[:3]` canonically by first occurrence (Python set iteration
order is unspecified; no claim depends on it).  Returns the sessions and the
response (`PAPER_REGISTRY` is never written by this handler). -/
def api_chat (reg : Registry) (sessions : Sessions) (pid msg : String)
    (uuidValid : Bool) (docs : List PDoc) (raw : List Char) :
    Sessions × ApiResponse (String × String × List String) :=
  if pid = "" then (sessions, .err 400 "Invalid request" "paper_id is required")
  else if msg = "" then (sessions, .err 400 "Invalid request" "message is required")
  else if ¬uuidValid then
    (sessions, .err 400 "Invalid request" "paper_id must be a valid UUID")
  else
    match dictLookup pid reg with
    | none => (sessions, .err 404 "Not found" "Paper with specified ID not found")
    | some info =>
      let sess := match dictLookup info.session_id sessions with
        | some s => s
        | none => ⟨info.query, info.summary, [(info.title, info.link)], []⟩
      let answer := (extract_answer_pipeline raw).asString
      let sess2 := { sess with
        history := sess.history ++ [("user", msg), ("assistant", answer)] }
      (dictInsert info.session_id sess2 sessions,
        .ok (answer, info.title, (keepFirst (docs.map titleOf)).take 3))

/-- The registration-and-conversion loop of `api_search` step 5
(lines 273-299): register every picked paper (unconditional overwrite,
all sharing the one corpus `summary`) and emit the response entries in
order. -/
def search_register_loop (linkToUuid : String → String)
    (sid query summary : String) : Registry → List TEntry → Registry × List PaperOut
  | reg, [] => (reg, [])
  | reg, e :: es =>
    let reg2 := dictInsert (linkToUuid e.link) ⟨sid, e.link, e.title, query, summary⟩ reg
    let out := search_register_loop linkToUuid sid query summary reg2 es
    (out.1, ⟨linkToUuid e.link, e.title, strTake summary 2000,
      roundTo2 (api_search_similarity e.dist)⟩ :: out.2)

/-- Steps 4-5 of `api_search` (`serve_adapted.py` lines 261-302): store the
new session, then register every picked paper (unconditional overwrite) and
convert it to the response shape; every response entry carries the same
corpus summary truncated to 2000 characters.  `sid` abstracts the fresh
`uuid.uuid4().hex[:8]`. -/
def api_search_finish (linkToUuid : String → String) (reg : Registry)
    (sessions : Sessions) (sid query summary : String) (picked : List TEntry) :
    Registry × Sessions × List PaperOut :=
  let sessions2 := dictInsert sid
    ⟨query, summary, picked.map (fun e => (e.title, e.link)), []⟩ sessions
  let out := search_register_loop linkToUuid sid query summary reg picked
  (out.1, sessions2, out.2)

/-! ### C8: chat-history ordering -/

theorem api_chat_history_update (reg : Registry) (sessions : Sessions)
    (pid msg : String) (docs : List PDoc) (raw : List Char) (info : PaperInfo)
    (hpid : pid ≠ "") (hmsg : msg ≠ "") (hlook : dictLookup pid reg = some info) :
    (dictLookup info.session_id
        (api_chat reg sessions pid msg true docs raw).1).map Session.history
      = some ((((dictLookup info.session_id sessions).map Session.history).getD [])
          ++ [("user", msg), ("assistant", (extract_answer_pipeline raw).asString)]) := by
  cases hs : dictLookup info.session_id sessions with
  | some s => simp [api_chat, hlook, hs, hpid, hmsg]
  | none => simp [api_chat, hlook, hs, hpid, hmsg]

/-- **C8**: within one session, every successful chat call appends exactly
two entries to the session's history — first `("user", message)`, then
`("assistant", answer)` — and sequential calls append in call order, so two
successive chat calls on the same paper grow the history by exactly four
entries in that order. -/
theorem C8_chat_history_ordering (reg : Registry) (sessions : Sessions)
    (pid m1 m2 : String) (docs1 docs2 : List PDoc) (raw1 raw2 : List Char)
    (info : PaperInfo) (hpid : pid ≠ "") (hm1 : m1 ≠ "") (hm2 : m2 ≠ "")
    (hlook : dictLookup pid reg = some info) :
    (dictLookup info.session_id
        (api_chat reg sessions pid m1 true docs1 raw1).1).map Session.history
      = some ((((dictLookup info.session_id sessions).map Session.history).getD [])
          ++ [("user", m1), ("assistant", (extract_answer_pipeline raw1).asString)])
    ∧ (dictLookup info.session_id
        (api_chat reg (api_chat reg sessions pid m1 true docs1 raw1).1
          pid m2 true docs2 raw2).1).map Session.history
      = some ((((dictLookup info.session_id sessions).map Session.history).getD [])
          ++ [("user", m1), ("assistant", (extract_answer_pipeline raw1).asString),
              ("user", m2), ("assistant", (extract_answer_pipeline raw2).asString)]) := by
  have h1 := api_chat_history_update reg sessions pid m1 docs1 raw1 info hpid hm1 hlook
  have h2 := api_chat_history_update reg (api_chat reg sessions pid m1 true docs1 raw1).1
    pid m2 docs2 raw2 info hpid hm2 hlook
  refine ⟨h1, ?_⟩
  rw [h2, h1]
  simp

/-- **C8, witness**: the history theorem applied to a concrete registry,
session store and pair of messages. -/
theorem C8_chat_history_ordering_witness :
    (("u" : String) ≠ "" ∧ ("hi" : String) ≠ "" ∧ ("more" : String) ≠ ""
      ∧ dictLookup "u" [("u", (⟨"s1", "lnk", "ttl", "qry", "sum"⟩ : PaperInfo))]
          = some ⟨"s1", "lnk", "ttl", "qry", "sum"⟩)
    ∧ (dictLookup "s1"
        (api_chat [("u", ⟨"s1", "lnk", "ttl", "qry", "sum"⟩)]
          (api_chat [("u", ⟨"s1", "lnk", "ttl", "qry", "sum"⟩)] [] "u" "hi" true []
            "ok1".data).1
          "u" "more" true [] "ok2".data).1).map Session.history
      = some ((((dictLookup "s1" ([] : Sessions)).map Session.history).getD [])
          ++ [("user", "hi"), ("assistant", (extract_answer_pipeline "ok1".data).asString),
              ("user", "more"),
              ("assistant", (extract_answer_pipeline "ok2".data).asString)]) := by
  refine ⟨⟨by decide, by decide, by decide, by decide⟩, ?_⟩
  exact (C8_chat_history_ordering [("u", ⟨"s1", "lnk", "ttl", "qry", "sum"⟩)] []
    "u" "hi" "more" [] [] "ok1".data "ok2".data ⟨"s1", "lnk", "ttl", "qry", "sum"⟩
    (by decide) (by decide) (by decide) (by decide)).2

/-! ### C10: one shared corpus-level summary per `/api/search` response -/

theorem search_register_loop_papers (linkToUuid : String → String)
    (sid query summary : String) :
    ∀ (reg : Registry) (picked : List TEntry),
      (search_register_loop linkToUuid sid query summary reg picked).2
        = picked.map (fun e => (⟨linkToUuid e.link, e.title, strTake summary 2000,
            roundTo2 (api_search_similarity e.dist)⟩ : PaperOut)) := by
  intro reg picked
  induction picked generalizing reg with
  | nil => simp [search_register_loop]
  | cons e es ih => simp [search_register_loop, ih]

/-- **C10**: every entry of a successful `/api/search` response carries the
identical `metadata.summary` string — the single corpus-level summary of the
query, truncated to at most 2000 characters — rather than a per-paper
summary. -/
theorem C10_shared_summary (linkToUuid : String → String) (reg : Registry)
    (sessions : Sessions) (sid query summary : String) (picked : List TEntry) :
    (∀ p ∈ (api_search_finish linkToUuid reg sessions sid query summary picked).2.2,
        p.summary = strTake summary 2000)
    ∧ (∀ p ∈ (api_search_finish linkToUuid reg sessions sid query summary picked).2.2,
       ∀ q ∈ (api_search_finish linkToUuid reg sessions sid query summary picked).2.2,
        p.summary = q.summary)
    ∧ (strTake summary 2000).length ≤ 2000 := by
  have hpapers : (api_search_finish linkToUuid reg sessions sid query summary picked).2.2
      = picked.map (fun e => (⟨linkToUuid e.link, e.title, strTake summary 2000,
          roundTo2 (api_search_similarity e.dist)⟩ : PaperOut)) := by
    simp [api_search_finish, search_register_loop_papers]
  have hall : ∀ p ∈ (api_search_finish linkToUuid reg sessions sid query
      summary picked).2.2, p.summary = strTake summary 2000 := by
    intro p hp
    rw [hpapers] at hp
    rcases List.mem_map.1 hp with ⟨e, _, rfl⟩
    rfl
  refine ⟨hall, fun p hp q hq => (hall p hp).trans (hall q hq).symm, ?_⟩
  show (summary.data.take 2000).length ≤ 2000
  rw [List.length_take]
  omega

/-- **C10, witness**: the shared-summary theorem applied to a concrete picked
list, evaluated at its first response entry. -/
theorem C10_shared_summary_witness :
    (⟨"a", "TA", strTake "corpus summary" 2000, roundTo2 (api_search_similarity 0)⟩ : PaperOut)
        ∈ (api_search_finish (fun l => l) [] [] "s1" "q" "corpus summary"
            [⟨"TA", "a", 0⟩, ⟨"TB", "b", 1⟩]).2.2
    ∧ (⟨"a", "TA", strTake "corpus summary" 2000,
        roundTo2 (api_search_similarity 0)⟩ : PaperOut).summary
      = strTake "corpus summary" 2000 := by
  have hmem : (⟨"a", "TA", strTake "corpus summary" 2000,
      roundTo2 (api_search_similarity 0)⟩ : PaperOut)
      ∈ (api_search_finish (fun l => l) [] [] "s1" "q" "corpus summary"
          [⟨"TA", "a", 0⟩, ⟨"TB", "b", 1⟩]).2.2 := by
    rw [show (api_search_finish (fun l => l) [] [] "s1" "q" "corpus summary"
        [⟨"TA", "a", 0⟩, ⟨"TB", "b", 1⟩]).2.2
      = [⟨"a", "TA", strTake "corpus summary" 2000, roundTo2 (api_search_similarity 0)⟩,
         ⟨"b", "TB", strTake "corpus summary" 2000, roundTo2 (api_search_similarity 1)⟩]
      from by simp [api_search_finish, search_register_loop_papers]]
    exact List.mem_cons_self _ _
  exact ⟨hmem, (C10_shared_summary (fun l => l) [] [] "s1" "q" "corpus summary"
    [⟨"TA", "a", 0⟩, ⟨"TB", "b", 1⟩]).1 _ hmem⟩

/-! ### The mock backend: `mock_data.py` and `mock-backend/app.py`

`_generate_deterministic_uuid` and the hash inside
`_generate_similarity_score` are MD5 digests; they are abstracted as the
function parameters `pidOf` (topic, index ↦ paper-id string) and `md5i`
(string ↦ value of `int(md5(s).hexdigest()[:8], 16)`). -/

/-- One paper of the `TOPICS` fixture: title and keyword list. -/
structure MockPaper where
  title : String
  keywords : List String
deriving DecidableEq

/-- The static `TOPICS` fixture of `MockDataGenerator` (titles and keyword
lists; the long prose `summary` fields are static text no claim reads and
are omitted from the embedding). -/
def TOPICS : List (String × List MockPaper) := [
  ("photosynthesis", [
    ⟨"C4 Photosynthesis in Tropical Grasses: Mechanisms and Evolution",
      ["C4 plants", "carbon fixation", "evolution", "tropical ecology"]⟩,
    ⟨"Light-Dependent Reactions in Thylakoid Membranes",
      ["chloroplast", "electron transport", "photosystems", "ATP synthesis"]⟩,
    ⟨"CAM Photosynthesis: Adaptation to Arid Environments",
      ["CAM metabolism", "desert plants", "water conservation", "adaptation"]⟩,
    ⟨"Rubisco: Structure, Function, and Evolutionary Engineering",
      ["Rubisco", "carbon fixation", "protein engineering", "crop improvement"]⟩,
    ⟨"Chlorophyll Biosynthesis and Light Absorption Mechanisms",
      ["chlorophyll", "light harvesting", "antenna complexes", "pigments"]⟩,
    ⟨"Carbon Fixation Pathways: Comparative Analysis",
      ["carbon fixation", "metabolic pathways", "plant evolution", "photosynthetic efficiency"]⟩,
    ⟨"Photorespiration and Its Role in Plant Metabolism",
      ["photorespiration", "metabolic cost", "temperature effects", "crop productivity"]⟩,
    ⟨"Artificial Photosynthesis for Renewable Energy",
      ["artificial photosynthesis", "renewable energy", "catalysts", "biomimicry"]⟩
  ]),
  ("quantum computing", [
    ⟨"Quantum Entanglement in Multi-Qubit Systems",
      ["entanglement", "qubits", "quantum states", "Bell inequality"]⟩,
    ⟨"Superconducting Qubits for Fault-Tolerant Quantum Computing",
      ["superconducting qubits", "error correction", "decoherence", "scalability"]⟩,
    ⟨"Quantum Algorithms: From Shor to Variational Approaches",
      ["quantum algorithms", "Shor algorithm", "VQE", "computational complexity"]⟩,
    ⟨"Topological Quantum Computing with Anyons",
      ["topological computing", "anyons", "Majorana fermions", "braiding"]⟩,
    ⟨"Quantum Error Correction: Surface Codes and Beyond",
      ["error correction", "surface codes", "threshold theorem", "fault tolerance"]⟩,
    ⟨"Ion Trap Quantum Computers: Architecture and Scalability",
      ["ion traps", "quantum gates", "coherence", "scalability"]⟩,
    ⟨"Quantum Machine Learning: Hybrid Classical-Quantum Approaches",
      ["quantum ML", "hybrid algorithms", "parameterized circuits", "optimization"]⟩
  ]),
  ("machine learning", [
    ⟨"Deep Neural Networks: Architecture and Optimization",
      ["deep learning", "neural networks", "optimization", "architectures"]⟩,
    ⟨"Transfer Learning in Computer Vision Applications",
      ["transfer learning", "computer vision", "fine-tuning", "domain adaptation"]⟩,
    ⟨"Reinforcement Learning: From Q-Learning to Deep RL",
      ["reinforcement learning", "Q-learning", "policy gradients", "deep RL"]⟩,
    ⟨"Attention Mechanisms and Transformer Models",
      ["attention", "transformers", "self-attention", "NLP"]⟩,
    ⟨"Generative Adversarial Networks for Image Synthesis",
      ["GANs", "generative models", "image synthesis", "training dynamics"]⟩,
    ⟨"Explainable AI: Interpretability in Deep Learning",
      ["explainable AI", "interpretability", "attention visualization", "transparency"]⟩,
    ⟨"Few-Shot Learning and Meta-Learning Approaches",
      ["few-shot learning", "meta-learning", "metric learning", "generalization"]⟩
  ]),
  ("climate change", [
    ⟨"Global Temperature Trends and Greenhouse Gas Emissions",
      ["temperature trends", "greenhouse gases", "climate models", "emissions"]⟩,
    ⟨"Arctic Ice Melt and Sea Level Rise Projections",
      ["Arctic ice", "sea level rise", "ice sheets", "coastal impacts"]⟩,
    ⟨"Ocean Acidification and Marine Ecosystem Impacts",
      ["ocean acidification", "marine ecosystems", "coral reefs", "CO2 absorption"]⟩,
    ⟨"Extreme Weather Events: Attribution and Trends",
      ["extreme weather", "attribution", "hurricanes", "droughts"]⟩,
    ⟨"Carbon Sequestration Technologies and Natural Solutions",
      ["carbon sequestration", "CCS", "reforestation", "climate solutions"]⟩,
    ⟨"Climate Feedback Loops: Amplification and Tipping Points",
      ["feedback loops", "tipping points", "permafrost", "methane"]⟩
  ]),
  ("neuroscience", [
    ⟨"Neuroplasticity and Synaptic Modification Mechanisms",
      ["neuroplasticity", "synaptic plasticity", "LTP", "learning"]⟩,
    ⟨"Neural Networks and Brain Connectivity Mapping",
      ["brain networks", "connectivity", "neuroimaging", "topology"]⟩,
    ⟨"Neurotransmitter Systems and Behavioral Regulation",
      ["neurotransmitters", "dopamine", "serotonin", "behavior"]⟩,
    ⟨"Memory Formation and Consolidation in the Hippocampus",
      ["memory", "hippocampus", "consolidation", "place cells"]⟩,
    ⟨"Brain-Computer Interfaces: From Neurons to Algorithms",
      ["BCI", "neural decoding", "neuroprosthetics", "machine learning"]⟩,
    ⟨"Cortical Processing of Visual Information",
      ["visual cortex", "processing hierarchy", "receptive fields", "object recognition"]⟩
  ]),
  ("artificial intelligence", [
    ⟨"Large Language Models: Architecture and Scaling Laws",
      ["LLMs", "transformers", "scaling laws", "language models"]⟩,
    ⟨"AI Safety and Alignment: Challenges and Approaches",
      ["AI safety", "alignment", "robustness", "interpretability"]⟩,
    ⟨"Multi-Modal Learning: Vision, Language, and Beyond",
      ["multi-modal", "vision-language", "contrastive learning", "representations"]⟩,
    ⟨"Neural Architecture Search and AutoML",
      ["NAS", "AutoML", "architecture search", "optimization"]⟩,
    ⟨"Continual Learning: Overcoming Catastrophic Forgetting",
      ["continual learning", "catastrophic forgetting", "lifelong learning", "plasticity"]⟩,
    ⟨"Graph Neural Networks for Relational Reasoning",
      ["GNNs", "graph learning", "relational reasoning", "message passing"]⟩
  ]),
  ("genetics", [
    ⟨"CRISPR-Cas9 Gene Editing: Mechanisms and Applications",
      ["CRISPR", "gene editing", "genome engineering", "therapeutics"]⟩,
    ⟨"Epigenetics: DNA Methylation and Histone Modifications",
      ["epigenetics", "DNA methylation", "chromatin", "gene expression"]⟩,
    ⟨"Single-Cell RNA Sequencing: Revealing Cellular Heterogeneity",
      ["scRNA-seq", "transcriptomics", "cell heterogeneity", "clustering"]⟩,
    ⟨"Population Genetics and Human Evolution",
      ["population genetics", "human evolution", "genetic variation", "selection"]⟩,
    ⟨"Gene Regulatory Networks and Transcription Factors",
      ["gene regulation", "transcription factors", "regulatory networks", "development"]⟩,
    ⟨"Cancer Genomics: Mutations and Driver Genes",
      ["cancer genomics", "somatic mutations", "driver genes", "evolution"]⟩
  ])
]

/-- A `paper_database` entry (`_initialize_paper_database`):
`{"paper_id": ..., "topic": ..., "metadata": {"title": ...}, "keywords": ..., "index": ...}`. -/
structure MockEntry where
  pid : String
  topic : String
  title : String
  index : ℕ
  keywords : List String
deriving DecidableEq

/-- `_initialize_paper_database`: for every topic and every paper index,
store the entry under `pidOf topic index`
(`_generate_deterministic_uuid(topic, idx)`).  The Python dict is modelled as
this association list in insertion order; with pairwise-distinct ids (the
MD5-collision-free case, a hypothesis where it matters) the two coincide. -/
def paperDatabase (pidOf : String → ℕ → String) : List (String × MockEntry) :=
  TOPICS.flatMap (fun tp => (pyEnum 0 tp.2).map (fun ip =>
    (pidOf tp.1 ip.1, ⟨pidOf tp.1 ip.1, tp.1, ip.2.title, ip.1, ip.2.keywords⟩)))

/-- `_generate_similarity_score(query, paper_data, index)`:

    base_score = 0.95 - (index * 0.05)
    variation = (int(md5(f"{query}_{paper_id}").hexdigest()[:8], 16) % 20) / 100.0
    score = max(0.50, min(0.99, base_score + variation - 0.10))
    return round(score, 2)
-/
def generate_similarity_score (md5i : String → ℕ) (query pid : String)
    (index : ℕ) : ℚ :=
  let base : ℚ := 95/100 - (index : ℚ) * (5/100)
  let variation : ℚ := ((md5i (query ++ "_" ++ pid) % 20 : ℕ) : ℚ) / 100
  roundTo2 (max (50/100) (min (99/100) (base + variation - 10/100)))

/-- Python `s.lower()` (character-wise lowercasing; the fixture is ASCII). -/
def pyLower (s : String) : String := ⟨s.data.map Char.toLower⟩

/-- The topic-match test of `search_papers` (line 328):
`topic in query_lower or any(keyword in query_lower for paper in papers_list
for keyword in paper["keywords"])`. -/
def topic_matches (ql : String) (tp : String × List MockPaper) : Bool :=
  strContains tp.1 ql || tp.2.any (fun p => p.keywords.any (fun kw => strContains kw ql))

/-- The matching-papers collection loop of `search_papers` (lines 327-332):
for each matching topic, append every database entry of that topic in
database order. -/
def matching_papers (db : List (String × MockEntry)) (ql : String) :
    List MockEntry :=
  (TOPICS.filter (topic_matches ql)).flatMap
    (fun tp => ((db.filter (fun pe => pe.2.topic = tp.1)).map Prod.snd))

/-- `MockDataGenerator.search_papers(query, count)` (lines 310-357),
returning each result as its database entry paired with its similarity
score (the JSON response projects out `paper_id`, `metadata`,
`similarity`). -/
def search_papers (md5i : String → ℕ) (pidOf : String → ℕ → String)
    (query : String) (count : ℕ) : List (MockEntry × ℚ) :=
  let ql := pyLower query
  let db := paperDatabase pidOf
  let m := matching_papers db ql
  let m := if m.isEmpty then
      ((db.filter (fun pe => pe.2.topic = (TOPICS.map Prod.fst).headD "")).map Prod.snd)
    else m
  let m := m.take (min count m.length)
  let results := (pyEnum 0 m).map (fun ie =>
    (ie.2, generate_similarity_score md5i query ie.2.pid ie.1))
  results.mergeSort (fun a b => decide (b.2 ≤ a.2))

/-- `_get_related_topics(topic)`: the hardcoded `relationships` table with
`.get(topic, [])`. -/
def related_topics (t : String) : List String :=
  if t = "photosynthesis" then ["climate change", "genetics"]
  else if t = "quantum computing" then ["artificial intelligence", "machine learning"]
  else if t = "machine learning" then ["artificial intelligence", "neuroscience"]
  else if t = "climate change" then ["photosynthesis", "genetics"]
  else if t = "neuroscience" then ["artificial intelligence", "machine learning"]
  else if t = "artificial intelligence" then
    ["machine learning", "neuroscience", "quantum computing"]
  else if t = "genetics" then ["neuroscience", "photosynthesis"]
  else []

/-- `MockDataGenerator.get_related_papers(paper_id, conversation, count)`
(lines 359-408; `conversation` is unused by the source). -/
def get_related_papers (md5i : String → ℕ) (pidOf : String → ℕ → String)
    (paper_id : String) (count : ℕ) : List (MockEntry × ℚ) :=
  let db := paperDatabase pidOf
  match dictLookup paper_id db with
  | none => []
  | some src =>
    let sameTopic := (db.filter (fun pe =>
      decide (pe.1 ≠ paper_id) && decide (pe.2.topic = src.topic))).map Prod.snd
    let cross := ((related_topics src.topic).take 2).flatMap
      (fun t => (db.filter (fun pe => pe.2.topic = t)).map Prod.snd)
    let related := (sameTopic ++ cross).take count
    let results := (pyEnum 0 related).map (fun ie =>
      (ie.2, max (55/100)
        (generate_similarity_score md5i src.title ie.2.pid (ie.1 + 3) - 15/100)))
    results.mergeSort (fun a b => decide (b.2 ≤ a.2))

/-- `MockDataGenerator.get_paper_by_id` (lines 424-433). -/
def get_paper_by_id (pidOf : String → ℕ → String) (paper_id : String) :
    Option MockEntry :=
  dictLookup paper_id (paperDatabase pidOf)

/-- The `/api/search_paper` endpoint of the mock backend (`app.py`
lines 246-288, after request validation): 404 with the fixed body when the
paper is unknown, otherwise the related papers with `count=7`. -/
def mock_search_related (md5i : String → ℕ) (pidOf : String → ℕ → String)
    (paper_id : String) : ApiResponse (List (MockEntry × ℚ)) :=
  match get_paper_by_id pidOf paper_id with
  | none => .err 404 "Not found" "Paper with specified ID not found"
  | some _ => .ok (get_related_papers md5i pidOf paper_id 7)

/-! ### C6: unknown-identifier handling -/

/-- **C6**: a `search_paper` request whose (non-empty, well-formed) `paper_id`
is absent from the registry (real backend) resp. the paper database (mock
backend) yields exactly the 404 response
`{"error": "Not found", "message": "Paper with specified ID not found"}`,
and the registry and session state are returned unchanged. -/
theorem C6_not_found (linkToUuid : String → String) (reg : Registry)
    (sessions : Sessions) (pid : String) (kRelated : ℕ) (neighs : List PDoc)
    (md5i : String → ℕ) (pidOf : String → ℕ → String) (mpid : String)
    (hpid : pid ≠ "") (hlook : dictLookup pid reg = none)
    (hmock : dictLookup mpid (paperDatabase pidOf) = none) :
    api_search_paper linkToUuid reg sessions pid true kRelated neighs
      = (reg, sessions,
          ApiResponse.err 404 "Not found" "Paper with specified ID not found")
    ∧ mock_search_related md5i pidOf mpid
      = ApiResponse.err 404 "Not found" "Paper with specified ID not found" := by
  constructor
  · simp [api_search_paper, hpid, hlook]
  · simp [mock_search_related, get_paper_by_id, hmock]

/-- **C6, witness**: the not-found theorem applied to an empty registry and a
paper id absent from the mock database. -/
theorem C6_not_found_witness :
    (("123e4567-e89b-12d3-a456-426614174000" : String) ≠ ""
      ∧ dictLookup "123e4567-e89b-12d3-a456-426614174000" ([] : Registry) = none
      ∧ dictLookup "zzz" (paperDatabase (fun t _ => t)) = none)
    ∧ api_search_paper (fun l => l) [] [] "123e4567-e89b-12d3-a456-426614174000"
        true 5 []
      = ([], [], ApiResponse.err 404 "Not found" "Paper with specified ID not found")
    ∧ mock_search_related (fun _ => 0) (fun t _ => t) "zzz"
      = ApiResponse.err 404 "Not found" "Paper with specified ID not found" := by
  have h := C6_not_found (fun l => l) [] [] "123e4567-e89b-12d3-a456-426614174000"
    5 [] (fun _ => 0) (fun t _ => t) "zzz" (by decide) (by decide) (by decide)
  exact ⟨⟨by decide, by decide, by decide⟩, h.1, h.2⟩

/-! ### Generic association-list and database lemmas (for C7 and C9) -/

theorem dictLookup_mem (k : String) (v : β) :
    ∀ l : List (String × β), dictLookup k l = some v → (k, v) ∈ l := by
  intro l
  induction l with
  | nil => intro h; simp [dictLookup] at h
  | cons p l ih =>
    obtain ⟨k', v'⟩ := p
    intro h
    rw [dictLookup] at h
    by_cases hk : k = k'
    · rw [if_pos hk] at h
      obtain rfl := Option.some.inj h
      exact hk ▸ List.mem_cons_self _ _
    · rw [if_neg hk] at h
      exact List.mem_cons_of_mem _ (ih h)

theorem nodup_key_unique (k : String) (v w : β) :
    ∀ l : List (String × β), (l.map Prod.fst).Nodup →
      (k, v) ∈ l → (k, w) ∈ l → v = w := by
  intro l
  induction l with
  | nil => intro _ hv; simp at hv
  | cons p l ih =>
    intro hnd hv hw
    rw [List.map_cons, List.nodup_cons] at hnd
    rcases List.mem_cons.1 hv with hv1 | hv2 <;> rcases List.mem_cons.1 hw with hw1 | hw2
    · rw [← hv1] at hw1
      exact (Prod.mk.injEq _ _ _ _ ▸ hw1).2.symm ▸ rfl
    · exfalso
      apply hnd.1
      rw [← hv1]
      exact List.mem_map.2 ⟨(k, w), hw2, rfl⟩
    · exfalso
      apply hnd.1
      rw [← hw1]
      exact List.mem_map.2 ⟨(k, v), hv2, rfl⟩
    · exact ih hnd.2 hv2 hw2

theorem paperDatabase_key (pidOf : String → ℕ → String) :
    ∀ pe ∈ paperDatabase pidOf, pe.1 = pe.2.pid := by
  intro pe hpe
  rcases List.mem_flatMap.1 hpe with ⟨tp, _, hin⟩
  rcases List.mem_map.1 hin with ⟨ip, _, rfl⟩
  rfl

theorem paperDatabase_topic (pidOf : String → ℕ → String) :
    ∀ pe ∈ paperDatabase pidOf, pe.2.topic ∈ TOPICS.map Prod.fst := by
  intro pe hpe
  rcases List.mem_flatMap.1 hpe with ⟨tp, htp, hin⟩
  rcases List.mem_map.1 hin with ⟨ip, _, rfl⟩
  exact List.mem_map.2 ⟨tp, htp, rfl⟩

theorem pyEnum_length : ∀ (l : List α) (i : ℕ), (pyEnum i l).length = l.length := by
  intro l
  induction l with
  | nil => intro i; rfl
  | cons a as ih => intro i; simp [pyEnum, ih]

theorem mem_pyEnum : ∀ (l : List α) (i : ℕ) (x : ℕ × α), x ∈ pyEnum i l → x.2 ∈ l := by
  intro l
  induction l with
  | nil => intro i x h; simp [pyEnum] at h
  | cons a as ih =>
    intro i x h
    rw [pyEnum] at h
    rcases List.mem_cons.1 h with rfl | h
    · exact List.mem_cons_self _ _
    · exact List.mem_cons_of_mem _ (ih (i + 1) x h)

/-! ### C7: the mock search end to end on `"photosynthesis"` -/

theorem roundTo2_mono {x y : ℚ} (h : x ≤ y) : roundTo2 x ≤ roundTo2 y := by
  unfold roundTo2
  have hr : round (x * 100) ≤ round (y * 100) := by
    rw [round_eq, round_eq]
    exact Int.floor_le_floor (by linarith)
  have hc : ((round (x * 100) : ℤ) : ℚ) ≤ ((round (y * 100) : ℤ) : ℚ) := by
    exact_mod_cast hr
  linarith

theorem roundTo2_fifty : roundTo2 ((50 : ℚ)/100) = 50/100 := by
  unfold roundTo2
  have h : (50 : ℚ)/100 * 100 = ((50 : ℕ) : ℚ) := by norm_num
  rw [h, round_natCast]
  norm_num

theorem roundTo2_ninetynine : roundTo2 ((99 : ℚ)/100) = 99/100 := by
  unfold roundTo2
  have h : (99 : ℚ)/100 * 100 = ((99 : ℕ) : ℚ) := by norm_num
  rw [h, round_natCast]
  norm_num

/-- The `[0.50, 0.99]` clamp of `_generate_similarity_score` holds for every
query, paper id and rank. -/
theorem generate_similarity_score_bounds (md5i : String → ℕ) (q p : String)
    (i : ℕ) :
    1/2 ≤ generate_similarity_score md5i q p i
    ∧ generate_similarity_score md5i q p i ≤ 99/100 := by
  simp only [generate_similarity_score]
  constructor
  · have hlo := roundTo2_mono (le_max_left ((50 : ℚ)/100)
      (min (99/100) (95/100 - (i : ℚ) * (5/100)
        + ((md5i (q ++ "_" ++ p) % 20 : ℕ) : ℚ)/100 - 10/100)))
    rw [roundTo2_fifty] at hlo
    calc (1/2 : ℚ) = 50/100 := by norm_num
    _ ≤ _ := hlo
  · have hhi := roundTo2_mono (max_le (show (50 : ℚ)/100 ≤ 99/100 by norm_num)
      (min_le_left ((99 : ℚ)/100) (95/100 - (i : ℚ) * (5/100)
        + ((md5i (q ++ "_" ++ p) % 20 : ℕ) : ℚ)/100 - 10/100)))
    rw [roundTo2_ninetynine] at hhi
    exact hhi

theorem sorted_mergeSort_desc (l : List (MockEntry × ℚ)) :
    List.Sorted (fun a b : MockEntry × ℚ => b.2 ≤ a.2)
      (l.mergeSort (fun a b => decide (b.2 ≤ a.2))) := by
  have h := @List.sorted_mergeSort (MockEntry × ℚ)
    (fun a b => decide (b.2 ≤ a.2))
    (fun a b c hab hbc => by
      simp only [decide_eq_true_eq] at *
      exact le_trans hbc hab)
    (fun a b => by
      simp only [Bool.or_eq_true, decide_eq_true_eq]
      exact le_total b.2 a.2) l
  show List.Pairwise _ _
  exact h.imp (fun hab => of_decide_eq_true hab)

theorem matching_papers_topic (db : List (String × MockEntry)) (ql : String) :
    ∀ x ∈ matching_papers db ql,
      x.topic ∈ (TOPICS.filter (topic_matches ql)).map Prod.fst := by
  intro x hx
  rcases List.mem_flatMap.1 hx with ⟨tp, htp, hin⟩
  rcases List.mem_map.1 hin with ⟨pe, hpe, rfl⟩
  have heq : pe.2.topic = tp.1 := by simpa using (List.mem_filter.1 hpe).2
  rw [heq]
  exact List.mem_map.2 ⟨tp, htp, rfl⟩

/-- The scoring-sorting tail of `search_papers`, for any matched list `m`
whose entries all carry topic `t`. -/
theorem search_pipeline_props (md5i : String → ℕ) (query t : String)
    (count : ℕ) (m : List MockEntry) (hm : ∀ e ∈ m, e.topic = t) :
    (((pyEnum 0 (m.take (min count m.length))).map (fun ie =>
        (ie.2, generate_similarity_score md5i query ie.2.pid ie.1))).mergeSort
          (fun a b => decide (b.2 ≤ a.2))).length ≤ count
    ∧ (∀ x ∈ ((pyEnum 0 (m.take (min count m.length))).map (fun ie =>
        (ie.2, generate_similarity_score md5i query ie.2.pid ie.1))).mergeSort
          (fun a b => decide (b.2 ≤ a.2)), x.1.topic = t)
    ∧ List.Sorted (fun a b : MockEntry × ℚ => b.2 ≤ a.2)
        (((pyEnum 0 (m.take (min count m.length))).map (fun ie =>
          (ie.2, generate_similarity_score md5i query ie.2.pid ie.1))).mergeSort
            (fun a b => decide (b.2 ≤ a.2)))
    ∧ (∀ x ∈ ((pyEnum 0 (m.take (min count m.length))).map (fun ie =>
        (ie.2, generate_similarity_score md5i query ie.2.pid ie.1))).mergeSort
          (fun a b => decide (b.2 ≤ a.2)), 1/2 ≤ x.2 ∧ x.2 ≤ 99/100) := by
  refine ⟨?_, ?_, sorted_mergeSort_desc _, ?_⟩
  · rw [List.length_mergeSort, List.length_map, pyEnum_length, List.length_take]
    exact le_trans (Nat.min_le_left _ _) (Nat.min_le_left _ _)
  · intro x hx
    rcases List.mem_map.1 (List.mem_mergeSort.1 hx) with ⟨ie, hie, rfl⟩
    have h2 : ie.2 ∈ m.take (min count m.length) := mem_pyEnum _ _ _ hie
    exact hm _ ((List.take_sublist _ _).subset h2)
  · intro x hx
    rcases List.mem_map.1 (List.mem_mergeSort.1 hx) with ⟨ie, hie, rfl⟩
    exact generate_similarity_score_bounds md5i query ie.2.pid ie.1

/-- **C7**: for the query `"photosynthesis"`, the mock generator's search
returns at most 10 papers, every returned paper belongs to the
`photosynthesis` topic, the list is sorted descending by similarity, every
similarity lies in `[0.50, 0.99]`, and the clamp of the deterministic scoring
function holds for every query, paper and rank. -/
theorem C7_mock_search (md5i : String → ℕ) (pidOf : String → ℕ → String) :
    (search_papers md5i pidOf "photosynthesis" 10).length ≤ 10
    ∧ (∀ x ∈ search_papers md5i pidOf "photosynthesis" 10,
        x.1.topic = "photosynthesis")
    ∧ List.Sorted (fun a b : MockEntry × ℚ => b.2 ≤ a.2)
        (search_papers md5i pidOf "photosynthesis" 10)
    ∧ (∀ x ∈ search_papers md5i pidOf "photosynthesis" 10,
        1/2 ≤ x.2 ∧ x.2 ≤ 99/100)
    ∧ (∀ (q p : String) (i : ℕ),
        1/2 ≤ generate_similarity_score md5i q p i
        ∧ generate_similarity_score md5i q p i ≤ 99/100) := by
  have hmatch : (TOPICS.filter (topic_matches (pyLower "photosynthesis"))).map
      Prod.fst = ["photosynthesis"] := by decide
  have hheadD : (TOPICS.map Prod.fst).headD "" = "photosynthesis" := by decide
  rcases Bool.eq_false_or_eq_true
      ((matching_papers (paperDatabase pidOf) (pyLower "photosynthesis")).isEmpty)
    with hemp | hemp
  · have hm : ∀ e ∈ ((paperDatabase pidOf).filter (fun pe =>
        pe.2.topic = (TOPICS.map Prod.fst).headD "")).map Prod.snd,
        e.topic = "photosynthesis" := by
      intro e he
      rcases List.mem_map.1 he with ⟨pe, hpe, rfl⟩
      have heq : pe.2.topic = (TOPICS.map Prod.fst).headD "" := by
        simpa using (List.mem_filter.1 hpe).2
      rw [heq, hheadD]
    have hgoal : search_papers md5i pidOf "photosynthesis" 10
        = ((pyEnum 0 ((((paperDatabase pidOf).filter (fun pe =>
              pe.2.topic = (TOPICS.map Prod.fst).headD "")).map Prod.snd).take
            (min 10 (((paperDatabase pidOf).filter (fun pe =>
              pe.2.topic = (TOPICS.map Prod.fst).headD "")).map Prod.snd).length))).map
            (fun ie =>
            (ie.2, generate_similarity_score md5i "photosynthesis" ie.2.pid ie.1))).mergeSort
              (fun a b => decide (b.2 ≤ a.2)) := by
      simp [search_papers, hemp]
    have hp := search_pipeline_props md5i "photosynthesis" "photosynthesis" 10
      (((paperDatabase pidOf).filter (fun pe =>
        pe.2.topic = (TOPICS.map Prod.fst).headD "")).map Prod.snd) hm
    rw [hgoal]
    exact ⟨hp.1, hp.2.1, hp.2.2.1, hp.2.2.2,
      fun q p i => generate_similarity_score_bounds md5i q p i⟩
  · have hm : ∀ e ∈ matching_papers (paperDatabase pidOf) (pyLower "photosynthesis"),
        e.topic = "photosynthesis" := by
      intro e he
      have := matching_papers_topic (paperDatabase pidOf) (pyLower "photosynthesis") e he
      rw [hmatch] at this
      simpa using this
    have hgoal : search_papers md5i pidOf "photosynthesis" 10
        = ((pyEnum 0 ((matching_papers (paperDatabase pidOf)
              (pyLower "photosynthesis")).take
            (min 10 (matching_papers (paperDatabase pidOf)
              (pyLower "photosynthesis")).length))).map (fun ie =>
            (ie.2, generate_similarity_score md5i "photosynthesis" ie.2.pid ie.1))).mergeSort
              (fun a b => decide (b.2 ≤ a.2)) := by
      simp [search_papers, hemp]
    have hp := search_pipeline_props md5i "photosynthesis" "photosynthesis" 10
      (matching_papers (paperDatabase pidOf) (pyLower "photosynthesis")) hm
    rw [hgoal]
    exact ⟨hp.1, hp.2.1, hp.2.2.1, hp.2.2.2,
      fun q p i => generate_similarity_score_bounds md5i q p i⟩

/-- **C7, witness**: the mock-search theorem instantiated at a concrete hash
abstraction and id assignment. -/
theorem C7_mock_search_witness :
    (search_papers (fun _ => 0) (fun t i => t ++ "-" ++ Nat.repr i)
        "photosynthesis" 10).length ≤ 10
    ∧ (1/2 ≤ generate_similarity_score (fun _ => 0) "q" "p" 3
        ∧ generate_similarity_score (fun _ => 0) "q" "p" 3 ≤ 99/100) :=
  ⟨(C7_mock_search (fun _ => 0) (fun t i => t ++ "-" ++ Nat.repr i)).1,
   (C7_mock_search (fun _ => 0) (fun t i => t ++ "-" ++ Nat.repr i)).2.2.2.2 "q" "p" 3⟩

/-! ### C9: graph expansion never returns the source paper -/

theorem related_loop_mem (ds : List PDoc) :
    ∀ (kR : ℕ) (used : List String) (acc : List TEntry) (x : TEntry),
      x ∈ related_loop kR used acc ds → x ∈ acc ∨ x.link ∉ used := by
  induction ds with
  | nil =>
    intro kR used acc x hx
    rw [related_loop] at hx
    exact Or.inl hx
  | cons d ds ih =>
    intro kR used acc x hx
    cases hg : goodLink d with
    | none =>
      simp only [related_loop, hg] at hx
      by_cases hbr : kR ≤ acc.length
      · rw [if_pos hbr] at hx
        exact Or.inl hx
      · rw [if_neg hbr] at hx
        exact ih kR used acc x hx
    | some l =>
      by_cases hmem : l ∈ used
      · simp only [related_loop, hg, if_pos hmem] at hx
        by_cases hbr : kR ≤ acc.length
        · rw [if_pos hbr] at hx
          exact Or.inl hx
        · rw [if_neg hbr] at hx
          exact ih kR used acc x hx
      · simp only [related_loop, hg, if_neg hmem] at hx
        by_cases hbr : kR ≤ (acc ++ [(⟨titleOf d, l, d.dist⟩ : TEntry)]).length
        · rw [if_pos hbr] at hx
          rcases List.mem_append.1 hx with h | h
          · exact Or.inl h
          · right
            obtain rfl : x = (⟨titleOf d, l, d.dist⟩ : TEntry) := by simpa using h
            exact hmem
        · rw [if_neg hbr] at hx
          rcases ih kR (l :: used) (acc ++ [⟨titleOf d, l, d.dist⟩]) x hx with h | h
          · rcases List.mem_append.1 h with h2 | h2
            · exact Or.inl h2
            · right
              obtain rfl : x = (⟨titleOf d, l, d.dist⟩ : TEntry) := by simpa using h2
              exact hmem
          · right
            exact fun hin => h (List.mem_cons_of_mem _ hin)

theorem register_related_ids (linkToUuid : String → String) (info : PaperInfo) :
    ∀ (rels : List TEntry) (reg : Registry),
      ((register_related linkToUuid info reg rels).2).map PaperOut.paper_id
        = rels.map (fun e => linkToUuid e.link) := by
  intro rels
  induction rels with
  | nil => intro reg; simp [register_related]
  | cons rel rels ih =>
    intro reg
    simp only [register_related, List.map_cons]
    rw [ih]

/-- **C9**: a `search_paper` call on a known paper never returns the source
paper itself.  Real backend: the dedup set is seeded with the source link, so
every selected related entry has a link different from the source's (and the
response's paper ids are exactly the uuids of those links).  Mock backend
(with pairwise-distinct database ids, the MD5-collision-free case): every
returned entry's paper id differs from the requested one. -/
theorem C9_no_self_reference (linkToUuid : String → String) (reg : Registry)
    (sessions : Sessions) (pid : String) (kRelated : ℕ) (neighs : List PDoc)
    (info : PaperInfo) (md5i : String → ℕ) (pidOf : String → ℕ → String)
    (mpid : String) (src : MockEntry) (c : ℕ)
    (hpid : pid ≠ "") (hlook : dictLookup pid reg = some info)
    (hnodup : ((paperDatabase pidOf).map Prod.fst).Nodup)
    (hmock : dictLookup mpid (paperDatabase pidOf) = some src) :
    (∀ e ∈ related_loop kRelated [info.link] [] neighs, e.link ≠ info.link)
    ∧ (api_search_paper linkToUuid reg sessions pid true kRelated neighs).2.2
        = ApiResponse.ok (register_related linkToUuid info reg
            (related_loop kRelated [info.link] [] neighs)).2
    ∧ ((register_related linkToUuid info reg
          (related_loop kRelated [info.link] [] neighs)).2.map PaperOut.paper_id)
        = (related_loop kRelated [info.link] [] neighs).map (fun e => linkToUuid e.link)
    ∧ (∀ x ∈ get_related_papers md5i pidOf mpid c, x.1.pid ≠ mpid) := by
  refine ⟨?_, ?_, register_related_ids linkToUuid info _ reg, ?_⟩
  · intro e he
    rcases related_loop_mem neighs kRelated [info.link] [] e he with h | h
    · simp at h
    · intro heq
      exact h (heq ▸ List.mem_cons_self _ _)
  · simp [api_search_paper, hpid, hlook]
  · intro x hx
    simp only [get_related_papers, hmock] at hx
    rcases List.mem_map.1 (List.mem_mergeSort.1 hx) with ⟨ie, hie, rfl⟩
    show ie.2.pid ≠ mpid
    have hrel := mem_pyEnum _ _ _ hie
    rcases List.mem_append.1 ((List.take_sublist _ _).subset hrel) with hs | hcr
    · rcases List.mem_map.1 hs with ⟨pe, hpe, hpe2⟩
      have hf := List.mem_filter.1 hpe
      have hne : pe.1 ≠ mpid := by
        have h2 := hf.2
        simp only [Bool.and_eq_true, decide_eq_true_eq] at h2
        exact h2.1
      rw [← hpe2, ← paperDatabase_key pidOf pe hf.1]
      exact hne
    · rcases List.mem_flatMap.1 hcr with ⟨t, ht, hin⟩
      rcases List.mem_map.1 hin with ⟨pe, hpe, hpe2⟩
      have hf := List.mem_filter.1 hpe
      have htop : pe.2.topic = t := by simpa using hf.2
      intro heq
      have hpair : (mpid, pe.2) ∈ paperDatabase pidOf := by
        have hkeq : pe.1 = mpid := by
          rw [paperDatabase_key pidOf pe hf.1, hpe2, heq]
        have : pe = (mpid, pe.2) := Prod.ext hkeq rfl
        exact this ▸ hf.1
      have hsrcmem : (mpid, src) ∈ paperDatabase pidOf := dictLookup_mem _ _ _ hmock
      have hpesrc : pe.2 = src := nodup_key_unique mpid pe.2 src _ hnodup hpair hsrcmem
      have htin : t ∈ related_topics src.topic := (List.take_sublist _ _).subset ht
      have hnotself : ∀ u ∈ TOPICS.map Prod.fst, u ∉ related_topics u := by decide
      have hsrctop : src.topic ∈ TOPICS.map Prod.fst := by
        have := paperDatabase_topic pidOf (mpid, src) hsrcmem
        simpa using this
      rw [hpesrc] at htop
      rw [htop] at htin hsrctop
      exact hnotself t hsrctop htin

/-- **C9, witness**: the no-self-reference theorem applied to a concrete
registry and neighbour list (which contains the source paper itself) and to a
concrete injective mock id assignment. -/
theorem C9_no_self_reference_witness :
    (("u" : String) ≠ ""
      ∧ dictLookup "u" [("u", (⟨"s1", "L0", "T0", "q", "sum"⟩ : PaperInfo))]
          = some ⟨"s1", "L0", "T0", "q", "sum"⟩
      ∧ ((paperDatabase (fun t i => t ++ "-" ++ Nat.repr i)).map Prod.fst).Nodup
      ∧ dictLookup "photosynthesis-0" (paperDatabase (fun t i => t ++ "-" ++ Nat.repr i))
          = some ⟨"photosynthesis-0", "photosynthesis",
              "C4 Photosynthesis in Tropical Grasses: Mechanisms and Evolution", 0,
              ["C4 plants", "carbon fixation", "evolution", "tropical ecology"]⟩)
    ∧ (∀ e ∈ related_loop 5 ["L0"] []
          [⟨some "T1", some "L1", 0⟩, ⟨some "T0", some "L0", 1⟩], e.link ≠ "L0")
    ∧ (∀ x ∈ get_related_papers (fun _ => 0) (fun t i => t ++ "-" ++ Nat.repr i)
          "photosynthesis-0" 7, x.1.pid ≠ "photosynthesis-0") := by
  have h := C9_no_self_reference (fun l => l)
    [("u", ⟨"s1", "L0", "T0", "q", "sum"⟩)] [] "u" 5
    [⟨some "T1", some "L1", 0⟩, ⟨some "T0", some "L0", 1⟩]
    ⟨"s1", "L0", "T0", "q", "sum"⟩ (fun _ => 0) (fun t i => t ++ "-" ++ Nat.repr i)
    "photosynthesis-0"
    ⟨"photosynthesis-0", "photosynthesis",
      "C4 Photosynthesis in Tropical Grasses: Mechanisms and Evolution", 0,
      ["C4 plants", "carbon fixation", "evolution", "tropical ecology"]⟩ 7
    (by decide) (by decide) (by decide) (by decide)
  exact ⟨⟨by decide, by decide, by decide, by decide⟩, h.1, h.2.2.2⟩

end NasaProject
